import Mathlib

/-!
Shallow embedding of `flappy_bird_ai.py` (single-file Flappy-Bird NEAT
trainer) and verification of the frozen claims about it.

Conventions of the embedding:
* Python `float` values reachable in this program are dyadic rationals and
  all arithmetic on them is exact in IEEE double for the magnitudes that
  occur, so they are embedded as `ℚ`; Python `int` values are `ℤ` or `ℕ`.
* Python object identity matters (`list.index` compares by identity for
  `Bird` objects, which define no `__eq__`); each `Bird` therefore carries a
  ghost `id` field standing for its object identity, and `list.index` is
  embedded as a search for that id.
* Quantities that come from image assets rather than from the source file
  (sprite widths/heights, the pixel hitmasks used by `collide`) are
  parameters of the model, collected in `Params`; the mask-overlap test
  itself is an abstract boolean function parameter.
* `random.randrange(lo, hi)` is modelled by its documented contract: a value
  in `[lo, hi)` determined by a seed drawn from a seed stream.
* Fallible operations (list indexing, `list.index`, `list.pop`) return
  `Except PyErr`; loops that Python runs by an internal cursor over a
  mutating list are embedded cursor-faithfully (the cursor advances even
  when an element was removed), with fuel for termination.
-/

namespace FlappyBird

/-- Error outcomes of the embedded Python code: `ValueError` from
`list.index`, `IndexError` from subscripts/`pop`, plus a fuel marker that
provably never occurs when loops get their stated fuel. -/
inductive PyErr where
  | valueError
  | indexError
  | outOfFuel
deriving Repr, DecidableEq

/-- FPS constant (line 7). -/
def FPS : ℕ := 15

/-- VELOCITY constant (line 8): horizontal scroll speed of pipes/floor. -/
def VELOCITY : ℤ := 5

/-- Bird.MAX_ROTATION (line 110). -/
def MAX_ROTATION : ℤ := 25

/-- Bird.ROT_VEL (line 111). -/
def ROT_VEL : ℤ := 20

/-- Pipe.SPACE (line 202): the fixed gap size between the pipes. -/
def SPACE : ℤ := 100

/-- The floor line used by the simulation loop (line 359). -/
def floorY : ℚ := 475

/-- The ceiling line used by the simulation loop (line 360). -/
def ceilingY : ℚ := 50

/-- The `Bird` class state (lines 89-143).  `id` is a ghost field standing
for Python object identity (see module comment); all other fields are the
attributes set in `Bird.__init__`, with `img` omitted (pure rendering). -/
structure Bird where
  id : ℕ
  x : ℤ
  y : ℚ
  height : ℚ
  tick_count : ℕ
  tilt : ℤ
  vel : ℚ
deriving Repr, DecidableEq

/-- `Bird.__init__(x, y)` (lines 114-143): `height = y`, `tick_count = 0`,
`tilt = 0`, `vel = 0`. -/
def Bird.create (id : ℕ) (x : ℤ) (y : ℚ) : Bird :=
  { id := id, x := x, y := y, height := y, tick_count := 0, tilt := 0, vel := 0 }

/-- `Bird.flap` (lines 145-148): records the flap height, resets the tick
counter, sets the fixed upward impulse velocity. -/
def Bird.flap (b : Bird) : Bird :=
  { b with height := b.y, tick_count := 0, vel := -11/2 }

/-- The raw displacement expression of `Bird.move` (line 153):
`vel * tick_count + 0.5 * 4 * tick_count ** 2` evaluated at the incremented
tick counter `t`. -/
def dispRaw (vel : ℚ) (t : ℕ) : ℚ :=
  vel * (t : ℚ) + 1/2 * 4 * (t : ℚ) ^ 2

/-- The displacement `Bird.move` actually adds to `y` (lines 153-159): the
raw displacement clamped to 24 when at least 24, with an extra -12 applied
when (after clamping) it is negative. -/
def dispMove (vel : ℚ) (t : ℕ) : ℚ :=
  let d0 := dispRaw vel t
  let d1 := if 24 ≤ d0 then 24 else d0
  if d1 < 0 then d1 - 12 else d1

/-- `Bird.move` (lines 150-169): increments the tick counter, adds the
clamped displacement to `y`, and updates the tilt. -/
def Bird.move (b : Bird) : Bird :=
  let t := b.tick_count + 1
  let d := dispMove b.vel t
  let y' := b.y + d
  let tilt' :=
    if d < 0 ∨ y' < b.height + 25 then
      if b.tilt < MAX_ROTATION then MAX_ROTATION else b.tilt
    else
      if -70 ≤ b.tilt then b.tilt - ROT_VEL else b.tilt
  { b with tick_count := t, y := y', tilt := tilt' }

/-- The `Pipe` class state (lines 183-231): horizontal position, the random
gap height, the derived `lower`/`upper` extents, and the `passed` flag. -/
structure Pipe where
  x : ℤ
  height : ℤ
  lower : ℤ
  upper : ℤ
  passed : Bool
deriving Repr, DecidableEq

/-- Contract model of Python's `random.randrange(lo, hi)` (stdlib, used at
line 241): a value in `[lo, hi)`, determined here by a seed `r`. -/
def randrange (lo hi : ℤ) (r : ℕ) : ℤ :=
  lo + (r : ℤ) % (hi - lo)

/-- `Pipe.set_height` (lines 240-243): draws the random height and derives
the lower/upper extents.  `pipeImgH` is the pipe sprite height
(`IMAGES['pipe'][0].get_height()`, an asset parameter). -/
def Pipe.set_height (pipeImgH : ℤ) (r : ℕ) (p : Pipe) : Pipe :=
  let h := randrange 50 320 r
  { p with height := h, lower := h + SPACE, upper := h - pipeImgH }

/-- `Pipe.__init__(x)` (lines 205-231): zero-initialises the extents, sets
`passed = False`, then calls `set_height` once. -/
def Pipe.create (pipeImgH : ℤ) (r : ℕ) (x : ℤ) : Pipe :=
  Pipe.set_height pipeImgH r
    { x := x, height := 0, lower := 0, upper := 0, passed := false }

/-- `Pipe.move` (lines 237-238). -/
def Pipe.move (p : Pipe) : Pipe :=
  { p with x := p.x - VELOCITY }

/-- The `Base` (floor) class state (lines 37-71). -/
structure Base where
  y : ℤ
  x1 : ℤ
  x2 : ℤ
deriving Repr, DecidableEq

/-- `Base.move` (lines 73-82); `baseW` is the floor image width. -/
def Base.move (baseW : ℤ) (b : Base) : Base :=
  let x1 := b.x1 - VELOCITY
  let x2 := b.x2 - VELOCITY
  let x1' := if x1 + baseW < 0 then x2 + baseW else x1
  let x2' := if x2 + baseW < 0 then x1' + baseW else x2
  { b with x1 := x1', x2 := x2' }

/-- Sorted insertion, the auxiliary of `sortNat` below. -/
def insertLe (a : ℕ) : List ℕ → List ℕ
  | [] => [a]
  | b :: bs => if a ≤ b then a :: b :: bs else b :: insertLe a bs

/-- Model of Python's `list.sort()` on a list of naturals (line 294):
insertion sort into ascending order. -/
def sortNat : List ℕ → List ℕ
  | [] => []
  | a :: as => insertLe a (sortNat as)

/-- `distribute_frames` (lines 277-296): the finite list that
`itertools.cycle` repeats — residues mod 4 of `range(FPS)`, sorted, with
`3` replaced by `1`. -/
def distribute_frames : List ℕ :=
  let frames := sortNat ((List.range FPS).map (fun x => x % 4))
  frames.map (fun n => if n = 3 then 1 else n)

/-- The value produced by the `i`-th call to `next` on the cycle returned by
`distribute_frames` (used as `NEXT_FRAME`, line 416). -/
def nextFrameAt (i : ℕ) : ℕ :=
  distribute_frames.getD (i % distribute_frames.length) 0

/-- A network evaluator (`neat.nn.FeedForwardNetwork.activate`, external
collaborator): maps the 3-value sensor vector to the scalar `output[0]`. -/
def Net : Type := ℚ × ℚ × ℚ → ℚ

/-- A genome as the loop sees it: only its mutable `fitness` accumulator. -/
structure Genome where
  fitness : ℚ
deriving Repr, DecidableEq

/-- Asset- and collaborator-determined parameters of the model: the
mask-overlap collision test of `collide` (lines 246-274, a function of the
current frame index, the pipe and the bird — the masks are image data), the
seed stream feeding `random.randrange`, and the sprite dimensions read off
the loaded images. -/
structure Params where
  collide : ℕ → Pipe → Bird → Bool
  heights : ℕ → ℕ
  pipeImgH : ℤ
  birdH : ℚ
  pipeW : ℤ
  baseW : ℤ

/-- The mutable state of one generation's simulation loop (`fitness`,
lines 341-440): the three index-aligned parallel lists, the pipes, the
shared score, the floor, the frame-cycle cursor and the seed cursor. -/
structure SimState where
  neural_nets : List Net
  genomes : List Genome
  birds : List Bird
  pipes : List Pipe
  score : ℕ
  base : Base
  frame : ℕ
  rng : ℕ

/-- Python list subscript `l[i]`: `IndexError` when out of range. -/
def getI {α : Type} (l : List α) (i : ℕ) : Except PyErr α :=
  match l.get? i with
  | some a => .ok a
  | none => .error .indexError

/-- First position of the bird with the given object identity, if any
(the search underlying Python's `list.index`). -/
def findBirdIdx (id : ℕ) : List Bird → Option ℕ
  | [] => none
  | b :: bs => if b.id = id then some 0 else (findBirdIdx id bs).map (· + 1)

/-- Python `birds.index(bird)`: first position whose element is the same
object (same ghost id); `ValueError` when the object is no longer in the
list. -/
def indexOfBird (birds : List Bird) (id : ℕ) : Except PyErr ℕ :=
  match findBirdIdx id birds with
  | some i => .ok i
  | none => .error .valueError

/-- Python `l.pop(i)` restricted to the removal effect: `IndexError` when
out of range. -/
def popI {α : Type} (l : List α) (i : ℕ) : Except PyErr (List α) :=
  if i < l.length then .ok (l.eraseIdx i) else .error .indexError

/-- Lines 394-397: choose the pipe used as the sensor reference — the
second pipe when one exists and the lead bird has passed the first pipe's
right edge.  Python short-circuits, so `birds[0]` is only read when more
than one pipe exists. -/
def computeSelPipe (P : Params) (st : SimState) : Except PyErr ℕ :=
  if 1 < st.pipes.length then do
    let b0 ← getI st.birds 0
    let p0 ← getI st.pipes 0
    pure (if p0.x + P.pipeW < b0.x then 1 else 0)
  else pure 0

/-- The body of the first per-bird loop (lines 399-412) at cursor position
`k`: add the survival reward to the genome found through `birds.index`,
move the bird in place, query its network on the sensor vector, and flap on
an output above 0.5. -/
def birdStep (_P : Params) (sel : ℕ) (k : ℕ) (bird : Bird) (st : SimState) :
    Except PyErr SimState := do
  let i₁ ← indexOfBird st.birds bird.id
  let g ← getI st.genomes i₁
  let genomes₁ := st.genomes.set i₁ { g with fitness := g.fitness + 1/10 }
  let bird₁ := bird.move
  let birds₁ := st.birds.set k bird₁
  let i₂ ← indexOfBird birds₁ bird₁.id
  let net ← getI st.neural_nets i₂
  let selp ← getI st.pipes sel
  let out := net (bird₁.y, |bird₁.y - (selp.height : ℚ)|, |bird₁.y - (selp.lower : ℚ)|)
  let birds₂ := if 1/2 < out then birds₁.set k bird₁.flap else birds₁
  pure { st with genomes := genomes₁, birds := birds₂ }

/-- The first per-bird loop (lines 399-412), cursor-faithful: Python's
`for bird in birds` fetches `birds[k]` and advances `k`; this loop never
removes entries.  Fuel `birds.length + 1 - k` always suffices. -/
def birdLoop1 (P : Params) (sel : ℕ) : ℕ → ℕ → SimState → Except PyErr SimState
  | 0, _, _ => .error .outOfFuel
  | fuel + 1, k, st =>
    match st.birds.get? k with
    | none => pure st
    | some bird => do
        let st' ← birdStep P sel k bird st
        birdLoop1 P sel fuel (k + 1) st'

/-- Lines 432-435: the pass check run for each (pipe, bird) combination —
always against the lead pipe `pipes[0]`.  When the lead pipe's x is left of
the bird's x and the pipe is not yet passed: mark it passed, append a new
pipe at the fixed spawn x 350, and increment the shared score. -/
def passCheck (P : Params) (bird : Bird) (st : SimState) : Except PyErr SimState := do
  let p0 ← getI st.pipes 0
  if p0.x < bird.x ∧ p0.passed = false then
    let pipes₁ := st.pipes.set 0 { p0 with passed := true }
    pure { st with
            pipes := pipes₁ ++ [Pipe.create P.pipeImgH (P.heights st.rng) 350],
            score := st.score + 1,
            rng := st.rng + 1 }
  else
    pure st

/-- The three synchronized removals `neural_nets.pop(birds.index(bird))`,
`genomes.pop(birds.index(bird))`, `birds.pop(birds.index(bird))`, each
recomputing `birds.index(bird)` as Python does (lines 423-425 and
428-430); raises `ValueError` when the bird is no longer in the list. -/
def popTriple (st : SimState) (id : ℕ) : Except PyErr SimState := do
  let i₁ ← indexOfBird st.birds id
  let nets₁ ← popI st.neural_nets i₁
  let i₂ ← indexOfBird st.birds id
  let genomes₁ ← popI st.genomes i₂
  let i₃ ← indexOfBird st.birds id
  let birds₁ ← popI st.birds i₃
  pure { st with neural_nets := nets₁, genomes := genomes₁, birds := birds₁ }

/-- The collision branch (lines 420-425): when the mask test reports an
overlap of the bird with the (already moved) pipe `pj`, apply the -1
fitness penalty to the genome at the bird's index and remove the triple. -/
def collideCheck (P : Params) (nf : ℕ) (pj : Pipe) (bird : Bird) (st : SimState) :
    Except PyErr SimState :=
  if P.collide nf pj bird then do
    let i ← indexOfBird st.birds bird.id
    let g ← getI st.genomes i
    popTriple
      { st with genomes := st.genomes.set i { g with fitness := g.fitness - 1 } }
      bird.id
  else pure st

/-- The floor/ceiling branch (lines 426-430): when the bird's y is at or
beyond `floor - bird height` or above the ceiling, remove the triple — its
`birds.index(bird)` raises `ValueError` when the same bird was already
removed by the collision branch of the same iteration. -/
def boundsCheck (P : Params) (bird : Bird) (st : SimState) : Except PyErr SimState :=
  if floorY - P.birdH ≤ bird.y ∨ bird.y < ceilingY then popTriple st bird.id
  else pure st

/-- The body of the elimination pass (lines 419-435) for the bird fetched
at the cursor, against the pipe at index `j` (already moved; refetched from
the list so that the in-place flip of `pipes[0]` stays visible through the
Python alias): collision branch, floor/ceiling branch, pass check. -/
def elimBody (P : Params) (nf : ℕ) (j : ℕ) (bird : Bird) (st : SimState) :
    Except PyErr SimState := do
  let pj ← getI st.pipes j
  let st₁ ← collideCheck P nf pj bird st
  let st₂ ← boundsCheck P bird st₁
  passCheck P bird st₂

/-- The inner `for bird in birds` of the elimination pass (lines 419-435),
cursor-faithful: removals shift later entries under the advancing cursor
exactly as in Python.  Fuel `birds.length + 1 - k` always suffices. -/
def birdLoop2 (P : Params) (nf : ℕ) (j : ℕ) : ℕ → ℕ → SimState → Except PyErr SimState
  | 0, _, _ => .error .outOfFuel
  | fuel + 1, k, st =>
    match st.birds.get? k with
    | none => pure st
    | some bird => do
        let st' ← elimBody P nf j bird st
        birdLoop2 P nf j fuel (k + 1) st'

/-- The outer `for pipe in pipes` of the elimination pass (lines 417-435),
cursor-faithful: a pipe appended by the pass check is reached by the same
iteration.  Each visited pipe is first moved in place (`pipe.move()`), then
the inner bird loop runs against it.  Fuel `pipes.length + 2 - j` always
suffices because at most one pipe is appended per pass. -/
def pipeLoop (P : Params) (nf : ℕ) : ℕ → ℕ → SimState → Except PyErr SimState
  | 0, _, _ => .error .outOfFuel
  | fuel + 1, j, st =>
    match st.pipes.get? j with
    | none => pure st
    | some pj => do
        let st₁ := { st with pipes := st.pipes.set j pj.move }
        let st₂ ← birdLoop2 P nf j (st₁.birds.length + 1) 0 st₁
        pipeLoop P nf fuel (j + 1) st₂

/-- One iteration of the `while` loop of `fitness` (lines 387-440), without
the rendering and clock calls (no simulation effect): select the sensor
pipe, run the first bird loop, move the floor, advance the frame cycle, run
the elimination pass, and drop the lead pipe once it has fully left the
screen. -/
def tick (P : Params) (st : SimState) : Except PyErr SimState := do
  let sel ← computeSelPipe P st
  let st₁ ← birdLoop1 P sel (st.birds.length + 1) 0 st
  let nf := nextFrameAt st₁.frame
  let st₂ := { st₁ with base := Base.move P.baseW st₁.base, frame := st₁.frame + 1 }
  let st₃ ← pipeLoop P nf (st₂.pipes.length + 2) 0 st₂
  let p0 ← getI st₃.pipes 0
  let pipes' := if p0.x < -P.pipeW then st₃.pipes.eraseIdx 0 else st₃.pipes
  pure { st₃ with pipes := pipes' }

/-- The `while True and len(birds) > 0` loop of `fitness` (line 387): runs
ticks until the population is extinct, then returns the final state.  The
fuel bounds the number of ticks; claims about termination must discharge
it. -/
def run (P : Params) : ℕ → SimState → Except PyErr SimState
  | 0, st => if st.birds.length = 0 then pure st else .error .outOfFuel
  | fuel + 1, st =>
    if st.birds.length = 0 then pure st
    else do
      let st' ← tick P st
      run P fuel st'

/-- The initialization part of `fitness` (lines 372-385): every genome's
fitness set to 0, one bird per genome spawned at (144, 256) (ghost ids are
their positions), the floor at 475, a single pipe at 350, score 0.  The
population is given as the list of network evaluators created from the
genome tuples (network construction is the external library's). -/
def initState (P : Params) (nets : List Net) : SimState :=
  { neural_nets := nets
  , genomes := nets.map (fun _ => { fitness := 0 })
  , birds := (List.range nets.length).map (fun i => Bird.create i 144 256)
  , pipes := [Pipe.create P.pipeImgH (P.heights 0) 350]
  , score := 0
  , base := { y := 475, x1 := 0, x2 := P.baseW }
  , frame := 0
  , rng := 1 }

/-- The whole `fitness` function (lines 341-440): initialization followed by
the simulation loop. -/
def fitness (P : Params) (nets : List Net) (fuel : ℕ) : Except PyErr SimState :=
  run P fuel (initState P nets)

/-- The exact vertical trajectory of a bird under repeated `move` calls
with no intervening flap, as a pure function of the starting height, the
velocity set at the last flap, and the tick counter (used for C10). -/
def trajY (y vel : ℚ) (t : ℕ) : ℕ → ℚ
  | 0 => y
  | n + 1 => trajY (y + dispMove vel (t + 1)) vel (t + 1) n

/-- Modelled from the spec: the scoring trigger as the spec words it — the
lead pipe's right edge (its x plus the pipe width) has passed the bird's x
and the pipe is not yet marked passed.  Used only to compare against the
trigger the code actually implements (`passCheck`). -/
def specPassTrigger (pipeW : ℤ) (p : Pipe) (b : Bird) : Prop :=
  p.x + pipeW < b.x ∧ p.passed = false

/-- A network evaluator that always outputs 0 (never flaps), for concrete
scenarios. -/
def zeroNet : Net := fun _ => 0

/-- Concrete parameters whose mask test always reports an overlap (a bird
horizontally and vertically inside a pipe sprite), with the standard sprite
dimensions. -/
def paramsHit : Params :=
  { collide := fun _ _ _ => true, heights := fun _ => 0,
    pipeImgH := 320, birdH := 24, pipeW := 52, baseW := 336 }

/-- Concrete parameters whose mask test never reports an overlap. -/
def paramsMiss : Params :=
  { collide := fun _ _ _ => false, heights := fun _ => 0,
    pipeImgH := 320, birdH := 24, pipeW := 52, baseW := 336 }

/-- Mid-generation state for C1: a single bird that has fallen to y = 470,
below the floor elimination line 475 - 24 = 451, with a pipe on screen. -/
def oneBirdLowState : SimState :=
  { neural_nets := [zeroNet], genomes := [{ fitness := 0 }],
    birds := [{ id := 0, x := 144, y := 470, height := 256, tick_count := 5,
                tilt := -75, vel := 0 }],
    pipes := [{ x := 300, height := 200, lower := 300, upper := -120, passed := false }],
    score := 0, base := { y := 475, x1 := 0, x2 := 336 }, frame := 0, rng := 1 }

/-- Mid-generation state for C1: two birds, both fallen to y = 470 below
the floor elimination line, with a pipe on screen. -/
def twoBirdsLowState : SimState :=
  { neural_nets := [zeroNet, zeroNet], genomes := [{ fitness := 0 }, { fitness := 0 }],
    birds := [{ id := 0, x := 144, y := 470, height := 256, tick_count := 5,
                tilt := -75, vel := 0 },
              { id := 1, x := 144, y := 470, height := 256, tick_count := 5,
                tilt := -75, vel := 0 }],
    pipes := [{ x := 300, height := 200, lower := 300, upper := -120, passed := false }],
    score := 0, base := { y := 475, x1 := 0, x2 := 336 }, frame := 0, rng := 1 }

/-- Mid-generation state for C2: one healthy bird at the spawn height and
an unpassed pipe whose left edge (x = 140) is just left of the bird's
x = 144 while its right edge (140 + 52 = 192) is far to the bird's right. -/
def pipeLeftEdgeState : SimState :=
  { neural_nets := [zeroNet], genomes := [{ fitness := 0 }],
    birds := [{ id := 0, x := 144, y := 256, height := 256, tick_count := 0,
                tilt := 0, vel := 0 }],
    pipes := [{ x := 140, height := 200, lower := 300, upper := -120, passed := false }],
    score := 0, base := { y := 475, x1 := 0, x2 := 336 }, frame := 0, rng := 1 }

/-- Mid-generation state for C4: a single bird at y = 468 (about to move
beyond the floor line) that the mask test also reports as colliding. -/
def lastBirdState : SimState :=
  { neural_nets := [zeroNet], genomes := [{ fitness := 0 }],
    birds := [{ id := 0, x := 144, y := 468, height := 256, tick_count := 4,
                tilt := -75, vel := 0 }],
    pipes := [{ x := 300, height := 200, lower := 300, upper := -120, passed := false }],
    score := 0, base := { y := 475, x1 := 0, x2 := 336 }, frame := 0, rng := 1 }

/-- Birds-empty state used by witnesses: one unpassed pipe, no birds. -/
def noBirdsState : SimState :=
  { neural_nets := [], genomes := [],
    birds := [],
    pipes := [{ x := 300, height := 200, lower := 300, upper := -120, passed := false }],
    score := 0, base := { y := 475, x1 := 0, x2 := 336 }, frame := 0, rng := 1 }

/-- Whether the lead pipe of the list is already marked passed (an empty
list counts as passed, so that no flip can be attributed to it). -/
def headPassedB : List Pipe → Bool
  | [] => true
  | p :: _ => p.passed

/-- The score/passed-flag coupling invariant relating the pipes and score
before and after part of an elimination pass: pipes are only appended
(fresh and unpassed), a `passed` flag never reverts, only the head pipe's
flag can flip, and the score grows by exactly 1 on a head flip and by 0
otherwise. -/
def PassedInv (ps : List Pipe) (sc : ℕ) (ps' : List Pipe) (sc' : ℕ) : Prop :=
  ps.length ≤ ps'.length
  ∧ (ps.length = 0 → ps'.length = 0)
  ∧ (∀ i, i ≠ 0 → ∀ (hi : i < ps.length) (hi' : i < ps'.length),
      (ps'.get ⟨i, hi'⟩).passed = (ps.get ⟨i, hi⟩).passed)
  ∧ (∀ j (hj : j < ps'.length), ps.length ≤ j → (ps'.get ⟨j, hj⟩).passed = false)
  ∧ (headPassedB ps = true → headPassedB ps' = true)
  ∧ sc' = sc + (if !headPassedB ps && headPassedB ps' then 1 else 0)

/-- The uniform no-flap bird trajectory from the spawn point: the state of
a bird spawned at (144, 256) after `t` ticks with no flap. -/
def birdAt (t : ℕ) : Bird :=
  Bird.move^[t] (Bird.create 0 144 256)

/-- Equality of birds up to the ghost identity field. -/
def eqUpToId (b c : Bird) : Prop :=
  b.x = c.x ∧ b.y = c.y ∧ b.height = c.height
  ∧ b.tick_count = c.tick_count ∧ b.tilt = c.tilt ∧ b.vel = c.vel

/-- All networks in the list output at most 0.5 on every input (the
never-flap hypothesis of C3). -/
def NetsOk (l : List Net) : Prop :=
  ∀ net ∈ l, ∀ v, net v ≤ 1/2

/-- Structural invariant on the pipe list maintained by the loop: nonempty,
every pipe behind the head still unpassed, and a passed head implies a
second pipe exists (its spawn companion). -/
def PipesOk (l : List Pipe) : Prop :=
  l ≠ []
  ∧ (∀ p ∈ l.tail, p.passed = false)
  ∧ (∀ (h : 0 < l.length), (l.get ⟨0, h⟩).passed = true → 2 ≤ l.length)

/-- The head pipe is resolved when it is passed or still right of the
birds' column x = 144; established by the first elimination check of a
tick and preserved afterwards, it rules out popping the only pipe. -/
def headResolved (st : SimState) : Prop :=
  ∀ p, st.pipes.head? = some p → p.passed = true ∨ 144 ≤ p.x

/-- Fuel measure for the elimination pipe loop: the pipe count plus one
spare slot for the single spawn that an unpassed head pipe can trigger. -/
def Mslack (st : SimState) : ℕ :=
  st.pipes.length + (if headPassedB st.pipes then 0 else 1)

/-- The floor/ceiling elimination condition of line 427 on a bird's y. -/
def OOBy (P : Params) (y : ℚ) : Prop :=
  floorY - P.birdH ≤ y ∨ y < ceilingY

/-- The full invariant of the C3 scenario (all networks silent, no mask
overlaps): at tick `t` every bird is the uniform trajectory bird up to
identity, the three parallel lists are aligned, bird identities are
distinct, networks are silent, and the pipe list is well-formed. -/
def Inv (t : ℕ) (st : SimState) : Prop :=
  (∀ b ∈ st.birds, eqUpToId (birdAt t) b)
  ∧ st.genomes.length = st.birds.length
  ∧ st.neural_nets.length = st.birds.length
  ∧ (st.birds.map Bird.id).Nodup
  ∧ NetsOk st.neural_nets
  ∧ PipesOk st.pipes

/-! ## Claim theorems: Bird physics (C6, C8, C10) -/

/-- C6: for every call to `Bird.move()`, whatever the current velocity and
tick counter, the displacement added to `y` never exceeds 24: the raw
displacement is clamped to 24 when it is at least 24, and the -12 bias is
applied exactly when the (clamped) displacement is negative, which moves it
further from the cap. -/
theorem move_fall_capped (b : Bird) :
    (Bird.move b).y ≤ b.y + 24
    ∧ (24 ≤ dispRaw b.vel (b.tick_count + 1) → (Bird.move b).y = b.y + 24)
    ∧ (dispRaw b.vel (b.tick_count + 1) < 0 →
        (Bird.move b).y = b.y + (dispRaw b.vel (b.tick_count + 1) - 12)) := by
  have hy : (Bird.move b).y = b.y + dispMove b.vel (b.tick_count + 1) := rfl
  refine ⟨?_, ?_, ?_⟩
  · rw [hy]
    unfold dispMove
    dsimp only
    split_ifs with h1 h2 h2 <;> simp_all <;> linarith
  · intro h
    rw [hy]
    unfold dispMove
    dsimp only
    split_ifs with h1 h2 <;> simp_all <;> linarith
  · intro h
    have h24 : ¬ (24 : ℚ) ≤ dispRaw b.vel (b.tick_count + 1) := by linarith
    rw [hy]
    unfold dispMove
    dsimp only
    split_ifs <;> simp_all <;> linarith

/-- C8: for every prior state of a `Bird`, `flap()` sets the tick counter
to 0 and the velocity to -5.5 (and records the flap height `height = y`,
leaving the position untouched); it is total, with no error conditions. -/
theorem flap_resets (b : Bird) :
    (Bird.flap b).tick_count = 0 ∧ (Bird.flap b).vel = -11/2
    ∧ (Bird.flap b).height = b.y ∧ (Bird.flap b).x = b.x
    ∧ (Bird.flap b).y = b.y ∧ (Bird.flap b).id = b.id := by
  exact ⟨rfl, rfl, rfl, rfl, rfl, rfl⟩

/-- Helper: `Bird.move` written as a field update (the let-free view). -/
theorem move_fields (b : Bird) :
    (Bird.move b).vel = b.vel ∧ (Bird.move b).x = b.x
    ∧ (Bird.move b).id = b.id ∧ (Bird.move b).height = b.height
    ∧ (Bird.move b).tick_count = b.tick_count + 1
    ∧ (Bird.move b).y = b.y + dispMove b.vel (b.tick_count + 1) :=
  ⟨rfl, rfl, rfl, rfl, rfl, rfl⟩

/-- C10: `Bird.move()` never modifies the bird's velocity or horizontal
position; `vel` is modified only by `flap()` (which also records the flap
height `height = y`); hence between flaps the vertical trajectory is the
pure function `trajY` of the height, velocity and tick counter left by the
last flap. -/
theorem move_pure_between_flaps (b : Bird) (n : ℕ) :
    (Bird.move b).vel = b.vel ∧ (Bird.move b).x = b.x
    ∧ (Bird.flap b).height = b.y
    ∧ (Bird.move^[n] b).y = trajY b.y b.vel b.tick_count n := by
  refine ⟨rfl, rfl, rfl, ?_⟩
  induction n generalizing b with
  | zero => rfl
  | succ n ih =>
      rw [Function.iterate_succ_apply]
      rw [ih (Bird.move b)]
      rfl

/-! ## Claim theorems: Pipe gap geometry (C7) -/

/-- C7: every gap height drawn by `set_height` lies in [50, 320); the lower
pipe's top is the height plus 100, the upper pipe's y is the height minus
the pipe sprite height, so lower-top minus upper-bottom is exactly the
fixed gap 100; the constructor calls `set_height` exactly once on the
zero-initialised unpassed pipe, and `move` (the only other pipe mutation
besides the `passed` flip) never re-rolls the gap. -/
theorem set_height_gap (pipeImgH : ℤ) (r : ℕ) (x : ℤ) :
    (50 ≤ (Pipe.create pipeImgH r x).height ∧ (Pipe.create pipeImgH r x).height < 320)
    ∧ (Pipe.create pipeImgH r x).lower = (Pipe.create pipeImgH r x).height + 100
    ∧ (Pipe.create pipeImgH r x).upper = (Pipe.create pipeImgH r x).height - pipeImgH
    ∧ (Pipe.create pipeImgH r x).lower - ((Pipe.create pipeImgH r x).upper + pipeImgH) = 100
    ∧ Pipe.create pipeImgH r x =
        Pipe.set_height pipeImgH r
          { x := x, height := 0, lower := 0, upper := 0, passed := false }
    ∧ (∀ p : Pipe, (Pipe.move p).height = p.height ∧ (Pipe.move p).lower = p.lower
        ∧ (Pipe.move p).upper = p.upper) := by
  have hmod0 : (0 : ℤ) ≤ (r : ℤ) % (320 - 50) := Int.emod_nonneg _ (by norm_num)
  have hmodlt : (r : ℤ) % (320 - 50) < 270 := Int.emod_lt_of_pos _ (by norm_num)
  refine ⟨⟨?_, ?_⟩, rfl, rfl, ?_, rfl, fun p => ⟨rfl, rfl, rfl⟩⟩
  case refine_3 =>
    show randrange 50 320 r + SPACE - (randrange 50 320 r - pipeImgH + pipeImgH) = 100
    unfold SPACE
    ring
  · show 50 ≤ randrange 50 320 r
    unfold randrange
    omega
  · show randrange 50 320 r < 320
    unfold randrange
    omega

/-! ## Claim theorems: frame distribution (C9) -/

/-- C9: every index yielded by the cycle built by `distribute_frames` is 0,
1 or 2 (the residue 3 is replaced by 1 before cycling), so indexing the
3-element bird sprite tuple in `Bird.draw` and the 3-element bird hitmask
tuple in `collide` with the current frame index is always in bounds. -/
theorem frame_indices_in_bounds (i : ℕ) : nextFrameAt i < 3 := by
  have hlen : distribute_frames.length = 15 := by decide
  have hall : ∀ n ∈ distribute_frames, n < 3 := by decide
  have hm : i % distribute_frames.length < distribute_frames.length := by
    rw [hlen]; exact Nat.mod_lt _ (by norm_num)
  unfold nextFrameAt
  rw [List.getD_eq_getElem _ _ hm]
  exact hall _ (List.getElem_mem _)

/-! ## Helper lemmas on the `Except` plumbing -/

/-- Inversion for a successful bind in the `Except PyErr` monad. -/
theorem bind_ok_iff {α β : Type} {x : Except PyErr α} {f : α → Except PyErr β} {b : β} :
    (x >>= f) = .ok b ↔ ∃ a, x = .ok a ∧ f a = .ok b := by
  cases x with
  | error e => simp [Bind.bind, Except.bind]
  | ok a => simp [Bind.bind, Except.bind]

/-- `pure` in the `Except PyErr` monad is `Except.ok`. -/
theorem pure_eq_ok {α : Type} (a : α) : (pure a : Except PyErr α) = .ok a := rfl

/-- A successful subscript is exactly a successful `get?`. -/
theorem getI_ok_iff {α : Type} {l : List α} {i : ℕ} {a : α} :
    getI l i = .ok a ↔ l.get? i = some a := by
  unfold getI
  cases h : l.get? i <;> simp

/-! ## Claim theorems: the scoring trigger edge (C2) -/

/-- C2 counterexample: in the concrete state `pipeLeftEdgeState` the tick
increments the shared score (and the claim's other effects fire), although
the lead pipe's right edge — whether sampled before the pipe moves
(140 + 52 = 192) or after (135 + 52 = 187) — has not passed the surviving
bird's x = 144, refuting the claim that the trigger compares the right
edge.  The trigger that fired compared the pipe's x (left edge) alone. -/
theorem score_trigger_right_edge_cex :
    Except.map SimState.score (tick paramsMiss pipeLeftEdgeState) = .ok 1
    ∧ ¬ specPassTrigger 52
        { x := 140, height := 200, lower := 300, upper := -120, passed := false }
        { id := 0, x := 144, y := 256, height := 256, tick_count := 0, tilt := 0, vel := 0 }
    ∧ ¬ specPassTrigger 52
        { x := 135, height := 200, lower := 300, upper := -120, passed := false }
        { id := 0, x := 144, y := 258, height := 256, tick_count := 1, tilt := 25, vel := 0 } := by
  refine ⟨?_, ?_, ?_⟩
  · norm_num [tick, computeSelPipe, birdLoop1, birdStep, pipeLoop, birdLoop2, elimBody,
      passCheck, collideCheck, boundsCheck, popTriple, getI, indexOfBird, findBirdIdx, popI, Bird.move, Bird.flap, dispMove,
      dispRaw, nextFrameAt, distribute_frames, sortNat, insertLe, Pipe.move, Pipe.create,
      Pipe.set_height, randrange, Base.move, paramsMiss, pipeLeftEdgeState, zeroNet, FPS,
      MAX_ROTATION, ROT_VEL, SPACE, VELOCITY, floorY, ceilingY, Except.map, Bind.bind,
      Except.bind, pure, Except.pure]
  · intro h
    exact absurd h.1 (by norm_num)
  · intro h
    exact absurd h.1 (by norm_num)

/-- C2 amended: the mark-passed / spawn / score-increment effects of the
per-bird pass check (lines 432-435) fire exactly when the lead pipe's x
(its left edge, not its right edge) is strictly less than the bird's x and
the pipe is not yet marked passed. -/
theorem score_trigger_left_edge (P : Params) (bird : Bird) (st st' : SimState) (p0 : Pipe)
    (hp : st.pipes.head? = some p0)
    (h : passCheck P bird st = .ok st') :
    (st'.score = st.score + 1 ↔ (p0.x < bird.x ∧ p0.passed = false))
    ∧ ((p0.x < bird.x ∧ p0.passed = false) →
        st'.pipes = st.pipes.set 0 { p0 with passed := true }
            ++ [Pipe.create P.pipeImgH (P.heights st.rng) 350]
        ∧ st'.score = st.score + 1 ∧ st'.rng = st.rng + 1)
    ∧ (¬ (p0.x < bird.x ∧ p0.passed = false) → st' = st) := by
  unfold passCheck at h
  rw [bind_ok_iff] at h
  obtain ⟨a, ha, h⟩ := h
  rw [getI_ok_iff] at ha
  rw [List.get?_zero, hp] at ha
  cases ha
  by_cases hcond : p0.x < bird.x ∧ p0.passed = false
  · rw [if_pos hcond] at h
    rw [pure_eq_ok, Except.ok.injEq] at h
    subst h
    refine ⟨by simp [hcond], fun _ => ⟨rfl, rfl, rfl⟩, fun hn => absurd hcond hn⟩
  · rw [if_neg hcond] at h
    rw [pure_eq_ok, Except.ok.injEq] at h
    subst h
    refine ⟨⟨fun hs => absurd hs (by omega), fun hc => absurd hc hcond⟩,
      fun hc => absurd hc hcond, fun _ => rfl⟩

/-- Closed witness for the amended C2 theorem at a concrete pass check:
a bird at x = 350 against the unpassed head pipe at x = 300. -/
theorem score_trigger_left_edge_witness :
    (1 : ℕ) = 0 + 1 ↔ ((300 : ℤ) < 350 ∧ (false : Bool) = false) :=
  (score_trigger_left_edge paramsMiss
    { id := 7, x := 350, y := 256, height := 256, tick_count := 0, tilt := 0, vel := 0 }
    noBirdsState
    { noBirdsState with
        pipes := [{ x := 300, height := 200, lower := 300, upper := -120, passed := true },
                  { x := 350, height := 50, lower := 150, upper := -270, passed := false }],
        score := 1, rng := 2 }
    { x := 300, height := 200, lower := 300, upper := -120, passed := false }
    rfl rfl).1

/-! ## Claim theorems: the elimination pass bugs (C1, C4) -/

/-- C1: the elimination pass violates the claim on concrete inputs.  First
conjunct: in `oneBirdLowState` the single bird is eliminated by collision,
yet the floor/ceiling check is still evaluated for it, and its
`birds.index(bird)` raises `ValueError` — the pass raises instead of
completing.  Second conjunct: in `twoBirdsLowState` both birds are beyond
the floor line, but removing bird 0 during `for bird in birds` shifts
bird 1 under the advancing cursor, so bird 1 is skipped and survives the
tick instead of being eliminated. -/
theorem elimination_pass_reentry_bug :
    Except.map SimState.score (tick paramsHit oneBirdLowState) = .error .valueError
    ∧ Except.map (fun st => List.length st.birds) (tick paramsMiss twoBirdsLowState)
        = .ok 1 := by
  constructor
  · norm_num [tick, computeSelPipe, birdLoop1, birdStep, pipeLoop, birdLoop2, elimBody,
      passCheck, collideCheck, boundsCheck, popTriple, getI, indexOfBird, findBirdIdx, popI, Bird.move, Bird.flap, dispMove,
      dispRaw, nextFrameAt, distribute_frames, sortNat, insertLe, Pipe.move, Pipe.create,
      Pipe.set_height, randrange, Base.move, paramsHit, oneBirdLowState, zeroNet, FPS,
      MAX_ROTATION, ROT_VEL, SPACE, VELOCITY, floorY, ceilingY, Except.map, Bind.bind,
      Except.bind, pure, Except.pure]
  · norm_num [tick, computeSelPipe, birdLoop1, birdStep, pipeLoop, birdLoop2, elimBody,
      passCheck, collideCheck, boundsCheck, popTriple, getI, indexOfBird, findBirdIdx, popI, Bird.move, Bird.flap, dispMove,
      dispRaw, nextFrameAt, distribute_frames, sortNat, insertLe, Pipe.move, Pipe.create,
      Pipe.set_height, randrange, Base.move, paramsMiss, twoBirdsLowState, zeroNet, FPS,
      MAX_ROTATION, ROT_VEL, SPACE, VELOCITY, floorY, ceilingY, Except.map, Bind.bind,
      Except.bind, pure, Except.pure]

/-- C4: the initialization does set every genome's fitness to exactly 0
(first conjunct, for a two-genome population), but the loop does not always
return normally once all birds are eliminated: from `lastBirdState`, the
tick in which the last bird is eliminated by collision while already beyond
the floor line raises `ValueError` out of the whole loop (second conjunct),
violating the return-not-raise contract. -/
theorem fitness_zeroed_but_loop_can_raise :
    (initState paramsMiss [zeroNet, zeroNet]).genomes
        = [{ fitness := 0 }, { fitness := 0 }]
    ∧ Except.map SimState.score (run paramsHit 3 lastBirdState) = .error .valueError := by
  constructor
  · rfl
  · norm_num [run, tick, computeSelPipe, birdLoop1, birdStep, pipeLoop, birdLoop2,
      elimBody, collideCheck, boundsCheck, passCheck, popTriple, getI, indexOfBird, findBirdIdx, popI, Bird.move, Bird.flap,
      dispMove, dispRaw, nextFrameAt, distribute_frames, sortNat, insertLe, Pipe.move,
      Pipe.create, Pipe.set_height, randrange, Base.move, paramsHit, lastBirdState,
      zeroNet, FPS, MAX_ROTATION, ROT_VEL, SPACE, VELOCITY, floorY, ceilingY, Except.map,
      Bind.bind, Except.bind, pure, Except.pure]

/-! ## The score/passed-flag coupling (towards C5) -/

/-- `headPassedB` as a statement about index 0. -/
theorem headPassedB_eq_get {ps : List Pipe} (h : 0 < ps.length) :
    headPassedB ps = (ps.get ⟨0, h⟩).passed := by
  cases ps with
  | nil => simp at h
  | cons p l => rfl

/-- `PassedInv` is reflexive. -/
theorem passedInv_refl (ps : List Pipe) (sc : ℕ) : PassedInv ps sc ps sc := by
  refine ⟨le_refl _, fun h => h, fun i hi0 hi hi' => rfl, fun j hj hge => by omega,
    fun h => h, ?_⟩
  cases hp : headPassedB ps <;> simp [hp]

/-- `PassedInv` composes. -/
theorem passedInv_trans {ps ps₁ ps₂ : List Pipe} {sc sc₁ sc₂ : ℕ}
    (h1 : PassedInv ps sc ps₁ sc₁) (h2 : PassedInv ps₁ sc₁ ps₂ sc₂) :
    PassedInv ps sc ps₂ sc₂ := by
  obtain ⟨L1, Z1, O1, N1, H1, S1⟩ := h1
  obtain ⟨L2, Z2, O2, N2, H2, S2⟩ := h2
  refine ⟨le_trans L1 L2, fun h => Z2 (Z1 h), ?_, ?_, fun h => H2 (H1 h), ?_⟩
  · intro i hi0 hi hi'
    have hi1 : i < ps₁.length := lt_of_lt_of_le hi L1
    rw [O2 i hi0 hi1 hi', O1 i hi0 hi hi1]
  · intro j hj hge
    by_cases hj1 : j < ps₁.length
    · have hj0 : j ≠ 0 := by
        intro h0
        subst h0
        have hz : ps.length = 0 := by omega
        have := Z1 hz
        omega
      rw [O2 j hj0 hj1 hj]
      exact N1 j hj1 hge
    · exact N2 j hj (by omega)
  · rw [S2, S1]
    by_cases h0 : headPassedB ps = true
    · have h1' := H1 h0
      have h2' := H2 h1'
      simp [h0, h1', h2']
    · have h0f : headPassedB ps = false := by simpa using h0
      by_cases h1' : headPassedB ps₁ = true
      · have h2' := H2 h1'
        simp [h0f, h1', h2']
      · have h1f : headPassedB ps₁ = false := by simpa using h1'
        simp [h0f, h1f]

/-- `PassedInv` holds between lists of the same length with pointwise equal
`passed` flags and an unchanged score. -/
theorem passedInv_of_pointwise {ps ps' : List Pipe} {sc : ℕ}
    (hlen : ps'.length = ps.length)
    (hpt : ∀ i (hi : i < ps.length) (hi' : i < ps'.length),
      (ps'.get ⟨i, hi'⟩).passed = (ps.get ⟨i, hi⟩).passed) :
    PassedInv ps sc ps' sc := by
  have hHead : headPassedB ps' = headPassedB ps := by
    cases ps with
    | nil =>
        cases ps' with
        | nil => rfl
        | cons q l => simp at hlen
    | cons p l =>
        cases ps' with
        | nil => simp at hlen
        | cons q l' => exact hpt 0 (by simp) (by simp)
  refine ⟨by omega, by omega, fun i _ hi hi' => hpt i hi hi', fun j hj hge => by omega,
    ?_, ?_⟩
  · rw [hHead]
    exact id
  · rw [hHead]
    cases headPassedB ps <;> simp

/-- A fresh pipe is unpassed. -/
theorem create_unpassed (pipeImgH : ℤ) (r : ℕ) (x : ℤ) :
    (Pipe.create pipeImgH r x).passed = false := rfl

/-- Full characterization of a successful `passCheck`: it touches only the
pipes, score and seed cursor, and does so exactly under the left-edge
trigger on the lead pipe. -/
theorem passCheck_spec {P : Params} {bird : Bird} {st st' : SimState}
    (h : passCheck P bird st = .ok st') :
    st'.birds = st.birds ∧ st'.genomes = st.genomes
    ∧ st'.neural_nets = st.neural_nets
    ∧ st'.base = st.base ∧ st'.frame = st.frame
    ∧ ∃ p0, st.pipes.get? 0 = some p0 ∧
      ((p0.x < bird.x ∧ p0.passed = false)
          ∧ st'.pipes = st.pipes.set 0 { p0 with passed := true }
              ++ [Pipe.create P.pipeImgH (P.heights st.rng) 350]
          ∧ st'.score = st.score + 1 ∧ st'.rng = st.rng + 1
        ∨ ¬ (p0.x < bird.x ∧ p0.passed = false) ∧ st' = st) := by
  unfold passCheck at h
  rw [bind_ok_iff] at h
  obtain ⟨p0, hp0, h⟩ := h
  rw [getI_ok_iff] at hp0
  by_cases hcond : p0.x < bird.x ∧ p0.passed = false
  · rw [if_pos hcond, pure_eq_ok, Except.ok.injEq] at h
    subst h
    exact ⟨rfl, rfl, rfl, rfl, rfl, p0, hp0, Or.inl ⟨hcond, rfl, rfl, rfl⟩⟩
  · rw [if_neg hcond, pure_eq_ok, Except.ok.injEq] at h
    subst h
    exact ⟨rfl, rfl, rfl, rfl, rfl, p0, hp0, Or.inr ⟨hcond, rfl⟩⟩

/-- A successful `passCheck` satisfies the score/passed coupling. -/
theorem passCheck_passedInv {P : Params} {bird : Bird} {st st' : SimState}
    (h : passCheck P bird st = .ok st') :
    PassedInv st.pipes st.score st'.pipes st'.score := by
  obtain ⟨-, -, -, -, -, p0, hp0, hcase⟩ := passCheck_spec h
  rcases hcase with ⟨hcond, hpipes, hscore, -⟩ | ⟨-, heq⟩
  · cases hps : st.pipes with
    | nil => rw [hps] at hp0; simp at hp0
    | cons q tail =>
        rw [hps] at hp0
        simp only [List.get?_cons_zero, Option.some.injEq] at hp0
        subst hp0
        rw [hps] at hpipes
        simp only [List.set_cons_zero, List.cons_append] at hpipes
        have hlen' : st'.pipes.length = tail.length + 2 := by
          rw [hpipes]; simp
        refine ⟨?_, ?_, ?_, ?_, ?_, ?_⟩
        · simp only [List.length_cons]
          omega
        · intro hz
          simp at hz
        · intro i hi0 hi hi'
          simp only [List.length_cons] at hi
          cases i with
          | zero => exact absurd rfl hi0
          | succ n =>
              have hn : n < tail.length := by omega
              have e1 : st'.pipes.get? (n + 1) = some (st'.pipes.get ⟨n + 1, hi'⟩) :=
                List.get?_eq_get hi'
              have e2 : st'.pipes.get? (n + 1) = tail.get? n := by
                rw [hpipes, List.get?_cons_succ]
                exact List.get?_append hn
              have e3 : tail.get? n = some (tail.get ⟨n, hn⟩) := List.get?_eq_get hn
              have e4 : st'.pipes.get ⟨n + 1, hi'⟩ = tail.get ⟨n, hn⟩ := by
                rw [e2, e3] at e1
                exact (Option.some.injEq _ _).mp e1.symm
              rw [e4]
              rfl
        · intro j hj hge
          simp only [List.length_cons] at hge
          have hjlen : j = tail.length + 1 := by omega
          subst hjlen
          have e1 : st'.pipes.get? (tail.length + 1)
              = some (st'.pipes.get ⟨tail.length + 1, hj⟩) := List.get?_eq_get hj
          have e2 : st'.pipes.get? (tail.length + 1)
              = some (Pipe.create P.pipeImgH (P.heights st.rng) 350) := by
            rw [hpipes, List.get?_cons_succ]
            rw [List.get?_append_right (le_refl _)]
            simp
          have e3 : st'.pipes.get ⟨tail.length + 1, hj⟩
              = Pipe.create P.pipeImgH (P.heights st.rng) 350 := by
            rw [e2] at e1
            exact (Option.some.injEq _ _).mp e1.symm
          rw [e3]
          exact create_unpassed _ _ _
        · intro hhd
          rw [show headPassedB (q :: tail) = q.passed from rfl, hcond.2] at hhd
          cases hhd
        · rw [hscore, hpipes]
          rw [show headPassedB (q :: tail) = q.passed from rfl, hcond.2]
          rfl
  · rw [heq]
    exact passedInv_refl _ _

/-- Full characterization of a successful `popTriple`: the same position,
located by the bird's identity, is removed from all three parallel lists;
nothing else changes. -/
theorem popTriple_spec {st : SimState} {id : ℕ} {st' : SimState}
    (h : popTriple st id = .ok st') :
    st'.pipes = st.pipes ∧ st'.score = st.score ∧ st'.rng = st.rng
    ∧ st'.base = st.base ∧ st'.frame = st.frame
    ∧ ∃ i, findBirdIdx id st.birds = some i
        ∧ i < st.birds.length ∧ i < st.neural_nets.length ∧ i < st.genomes.length
        ∧ st'.birds = st.birds.eraseIdx i
        ∧ st'.neural_nets = st.neural_nets.eraseIdx i
        ∧ st'.genomes = st.genomes.eraseIdx i := by
  unfold popTriple at h
  rw [bind_ok_iff] at h
  obtain ⟨i₁, hi₁, h⟩ := h
  rw [bind_ok_iff] at h
  obtain ⟨nets₁, hn, h⟩ := h
  rw [bind_ok_iff] at h
  obtain ⟨i₂, hi₂, h⟩ := h
  rw [bind_ok_iff] at h
  obtain ⟨genomes₁, hg, h⟩ := h
  rw [bind_ok_iff] at h
  obtain ⟨i₃, hi₃, h⟩ := h
  rw [bind_ok_iff] at h
  obtain ⟨birds₁, hb, h⟩ := h
  rw [pure_eq_ok, Except.ok.injEq] at h
  subst h
  unfold indexOfBird at hi₁ hi₂ hi₃
  cases hidx : findBirdIdx id st.birds with
  | none => rw [hidx] at hi₁; cases hi₁
  | some i =>
      rw [hidx] at hi₁ hi₂ hi₃
      have e1 := Except.ok.inj hi₁
      have e2 := Except.ok.inj hi₂
      have e3 := Except.ok.inj hi₃
      subst e1
      subst e2
      subst e3
      unfold popI at hn hg hb
      split_ifs at hn hg hb with h1 h2 h3
      rw [Except.ok.injEq] at hn hg hb
      subst hn; subst hg; subst hb
      exact ⟨rfl, rfl, rfl, rfl, rfl, i, rfl, h3, h1, h2, rfl, rfl, rfl⟩

/-- A successful collision branch leaves pipes and score alone and never
grows the bird list. -/
theorem collideCheck_effects {P : Params} {nf : ℕ} {pj : Pipe} {bird : Bird}
    {st st' : SimState} (h : collideCheck P nf pj bird st = .ok st') :
    st'.pipes = st.pipes ∧ st'.score = st.score
    ∧ st'.birds.length ≤ st.birds.length := by
  unfold collideCheck at h
  split_ifs at h with hcol
  · rw [bind_ok_iff] at h
    obtain ⟨i, hi, h⟩ := h
    rw [bind_ok_iff] at h
    obtain ⟨g, hgid, h⟩ := h
    obtain ⟨hp, hs, -, -, -, k, -, hk, -, -, hb, -, -⟩ := popTriple_spec h
    refine ⟨hp, hs, ?_⟩
    rw [hb]
    simp only at hk ⊢
    rw [List.length_eraseIdx_of_lt hk]
    omega
  · rw [pure_eq_ok, Except.ok.injEq] at h
    subst h
    exact ⟨rfl, rfl, le_refl _⟩

/-- A successful floor/ceiling branch leaves pipes and score alone and
never grows the bird list. -/
theorem boundsCheck_effects {P : Params} {bird : Bird} {st st' : SimState}
    (h : boundsCheck P bird st = .ok st') :
    st'.pipes = st.pipes ∧ st'.score = st.score
    ∧ st'.birds.length ≤ st.birds.length := by
  unfold boundsCheck at h
  split_ifs at h with hoob
  · obtain ⟨hp, hs, -, -, -, k, -, hk, -, -, hb, -, -⟩ := popTriple_spec h
    refine ⟨hp, hs, ?_⟩
    rw [hb, List.length_eraseIdx_of_lt hk]
    omega
  · rw [pure_eq_ok, Except.ok.injEq] at h
    subst h
    exact ⟨rfl, rfl, le_refl _⟩

/-- A successful elimination-pass body preserves the score/passed coupling
and never grows the bird list. -/
theorem elimBody_passedInv {P : Params} {nf j : ℕ} {bird : Bird} {st st' : SimState}
    (h : elimBody P nf j bird st = .ok st') :
    PassedInv st.pipes st.score st'.pipes st'.score
    ∧ st'.birds.length ≤ st.birds.length := by
  unfold elimBody at h
  rw [bind_ok_iff] at h
  obtain ⟨pj, hpj, h⟩ := h
  rw [bind_ok_iff] at h
  obtain ⟨st₁, hst₁, h⟩ := h
  rw [bind_ok_iff] at h
  obtain ⟨st₂, hst₂, h⟩ := h
  obtain ⟨hp1, hs1, hl1⟩ := collideCheck_effects hst₁
  obtain ⟨hp2, hs2, hl2⟩ := boundsCheck_effects hst₂
  obtain ⟨hb', -, -, -, -, -⟩ := passCheck_spec h
  have hinv := passCheck_passedInv h
  rw [hp2, hp1, hs2, hs1] at hinv
  refine ⟨hinv, ?_⟩
  rw [hb']
  exact le_trans hl2 hl1

/-- The inner elimination bird loop preserves the score/passed coupling and
never grows the bird list. -/
theorem birdLoop2_passedInv {P : Params} {nf j : ℕ} :
    ∀ (fuel k : ℕ) (st st' : SimState), birdLoop2 P nf j fuel k st = .ok st' →
      PassedInv st.pipes st.score st'.pipes st'.score
      ∧ st'.birds.length ≤ st.birds.length := by
  intro fuel
  induction fuel with
  | zero => intro k st st' h; cases h
  | succ fuel ih =>
      intro k st st' h
      unfold birdLoop2 at h
      cases hk : st.birds.get? k with
      | none =>
          rw [hk, pure_eq_ok, Except.ok.injEq] at h
          subst h
          exact ⟨passedInv_refl _ _, le_refl _⟩
      | some bird =>
          rw [hk, bind_ok_iff] at h
          obtain ⟨st₁, hst₁, h⟩ := h
          obtain ⟨hinv1, hlen1⟩ := elimBody_passedInv hst₁
          obtain ⟨hinv2, hlen2⟩ := ih (k + 1) st₁ st' h
          exact ⟨passedInv_trans hinv1 hinv2, le_trans hlen2 hlen1⟩

/-- The outer elimination pipe loop preserves the score/passed coupling and
never grows the bird list. -/
theorem pipeLoop_passedInv {P : Params} {nf : ℕ} :
    ∀ (fuel j : ℕ) (st st' : SimState), pipeLoop P nf fuel j st = .ok st' →
      PassedInv st.pipes st.score st'.pipes st'.score
      ∧ st'.birds.length ≤ st.birds.length := by
  intro fuel
  induction fuel with
  | zero => intro j st st' h; cases h
  | succ fuel ih =>
      intro j st st' h
      unfold pipeLoop at h
      cases hj : st.pipes.get? j with
      | none =>
          rw [hj, pure_eq_ok, Except.ok.injEq] at h
          subst h
          exact ⟨passedInv_refl _ _, le_refl _⟩
      | some pj =>
          rw [hj, bind_ok_iff] at h
          obtain ⟨st₂, hst₂, h⟩ := h
          have hmv : PassedInv st.pipes st.score (st.pipes.set j pj.move) st.score := by
            refine passedInv_of_pointwise (by simp) ?_
            intro i hi hi'
            by_cases hij : j = i
            · subst hij
              rw [List.get_set_eq]
              have : st.pipes.get ⟨j, hi⟩ = pj := by
                have := List.get?_eq_get hi
                rw [hj] at this
                exact (Option.some.injEq _ _).mp this.symm
              rw [this]
              rfl
            · rw [List.get_set_ne hij]
          obtain ⟨hinv2, hlen2⟩ := birdLoop2_passedInv _ _ _ _ hst₂
          obtain ⟨hinv3, hlen3⟩ := ih (j + 1) st₂ st' h
          refine ⟨passedInv_trans hmv (passedInv_trans ?_ hinv3), le_trans hlen3 hlen2⟩
          exact hinv2

/-! ## Claim theorem: the score increments at most once per pipe (C5) -/

/-- C5: across one whole elimination pass (every pipe crossed with every
bird, lines 417-435), the shared score is incremented at most once; it is
incremented exactly when the lead pipe's `passed` flag flips from unpassed
to passed; a pipe already marked passed keeps its flag and blocks any
further increment; every other pre-existing pipe keeps its `passed` flag
unchanged, and every pipe appended during the pass is fresh and unpassed —
so the flag flips exactly once per pipe and the score is incremented at
most once on account of each pipe, no matter how many birds satisfy the
pass condition in the same tick. -/
theorem score_once_per_pipe {P : Params} {nf fuel : ℕ} {st st' : SimState}
    (h : pipeLoop P nf fuel 0 st = .ok st') :
    st'.score ≤ st.score + 1
    ∧ (st'.score = st.score + 1 ↔
        headPassedB st.pipes = false ∧ headPassedB st'.pipes = true)
    ∧ (headPassedB st.pipes = true → headPassedB st'.pipes = true ∧ st'.score = st.score)
    ∧ (∀ i, i ≠ 0 → ∀ (hi : i < st.pipes.length) (hi' : i < st'.pipes.length),
        (st'.pipes.get ⟨i, hi'⟩).passed = (st.pipes.get ⟨i, hi⟩).passed)
    ∧ (∀ j (hj : j < st'.pipes.length), st.pipes.length ≤ j →
        (st'.pipes.get ⟨j, hj⟩).passed = false) := by
  obtain ⟨hinv, -⟩ := pipeLoop_passedInv _ _ _ _ h
  obtain ⟨L, Z, O, N, H, S⟩ := hinv
  refine ⟨?_, ?_, ?_, O, N⟩
  · rw [S]
    split_ifs <;> omega
  · constructor
    · intro hs
      rw [S] at hs
      by_cases h0 : headPassedB st.pipes = true
      · have h1 := H h0
        simp [h0, h1] at hs
      · have h0f : headPassedB st.pipes = false := by simpa using h0
        by_cases h1 : headPassedB st'.pipes = true
        · exact ⟨h0f, h1⟩
        · have h1f : headPassedB st'.pipes = false := by simpa using h1
          simp [h0f, h1f] at hs
    · rintro ⟨h0, h1⟩
      rw [S, h0, h1]
      simp
  · intro h0
    have h1 := H h0
    refine ⟨h1, ?_⟩
    rw [S, h0]
    simp

/-- Closed witness for C5: the elimination pass run from the birds-empty
state with a single unpassed pipe increments nothing. -/
theorem score_once_per_pipe_witness : (0 : ℕ) ≤ 0 + 1 :=
  (@score_once_per_pipe paramsMiss 0 3 noBirdsState
    { noBirdsState with
        pipes := [{ x := 295, height := 200, lower := 300, upper := -120,
                    passed := false }] }
    rfl).1

/-! ## The no-flap trajectory (towards C3) -/

/-- `birdAt` unfolds one step at the front. -/
theorem birdAt_succ (t : ℕ) : birdAt (t + 1) = Bird.move (birdAt t) :=
  Function.iterate_succ_apply' Bird.move t _

/-- The no-flap bird keeps velocity 0, column 144, flap height 256, and its
tick counter equals the tick number. -/
theorem birdAt_fields (t : ℕ) :
    (birdAt t).vel = 0 ∧ (birdAt t).x = 144 ∧ (birdAt t).height = 256
    ∧ (birdAt t).tick_count = t := by
  induction t with
  | zero => exact ⟨rfl, rfl, rfl, rfl⟩
  | succ t ih =>
      rw [birdAt_succ]
      obtain ⟨hv, hx, hh, ht⟩ := ih
      exact ⟨hv ▸ rfl, hx ▸ rfl, hh ▸ rfl, by
        have := (move_fields (birdAt t)).2.2.2.2.1
        rw [this, ht]⟩

/-- With zero velocity the clamped displacement is nonnegative. -/
theorem dispMove_zero_nonneg (t : ℕ) : 0 ≤ dispMove 0 t := by
  unfold dispMove dispRaw
  dsimp only
  split_ifs with h1 h2 h2 <;> [norm_num; skip; norm_num; skip] <;> nlinarith [sq_nonneg ((t : ℚ))]

/-- With zero velocity the clamped displacement is strictly positive from
the first tick on. -/
theorem dispMove_zero_pos (t : ℕ) : 0 < dispMove 0 (t + 1) := by
  have ht : (1 : ℚ) ≤ ((t + 1 : ℕ) : ℚ) := by exact_mod_cast Nat.succ_le_succ (Nat.zero_le t)
  have hraw : (2 : ℚ) ≤ dispRaw 0 (t + 1) := by
    unfold dispRaw
    have : (1 : ℚ) ≤ ((t + 1 : ℕ) : ℚ) ^ 2 := by nlinarith
    nlinarith
  unfold dispMove
  dsimp only
  split_ifs with h1 h2 h2 <;> norm_num <;> linarith

/-- The no-flap bird's y never decreases. -/
theorem birdAt_y_mono (t : ℕ) : (birdAt t).y ≤ (birdAt (t + 1)).y := by
  rw [birdAt_succ]
  have hy := (move_fields (birdAt t)).2.2.2.2.2
  rw [hy, (birdAt_fields t).1]
  have := dispMove_zero_nonneg ((birdAt t).tick_count + 1)
  linarith

/-- After 11 no-flap ticks from the spawn point the bird's y is 476. -/
theorem birdAt_11_y : (birdAt 11).y = 476 := by
  show (Bird.move^[11] (Bird.create 0 144 256)).y = 476
  norm_num [Function.iterate_succ_apply', Function.iterate_zero_apply, Bird.move,
    Bird.create, dispMove, dispRaw, MAX_ROTATION, ROT_VEL]

/-- From tick 11 on the no-flap bird sits at y at least 476, beyond the
floor line. -/
theorem birdAt_y_late (t : ℕ) (h : 11 ≤ t) : 476 ≤ (birdAt t).y := by
  induction t with
  | zero => omega
  | succ t ih =>
      rcases Nat.lt_or_ge t 11 with hlt | hge
      · have : t + 1 = 11 := by omega
        rw [this, birdAt_11_y]
      · have := birdAt_y_mono t
        have := ih hge
        linarith

/-- `Bird.move` respects equality up to identity. -/
theorem eqUpToId_move {b c : Bird} (h : eqUpToId b c) :
    eqUpToId (Bird.move b) (Bird.move c) := by
  obtain ⟨hx, hy, hh, ht, hti, hv⟩ := h
  unfold Bird.move eqUpToId
  dsimp only
  rw [hx, hy, hh, ht, hti, hv]
  exact ⟨rfl, rfl, rfl, rfl, rfl, rfl⟩

/-- `eqUpToId` is reflexive. -/
theorem eqUpToId_refl (b : Bird) : eqUpToId b b :=
  ⟨rfl, rfl, rfl, rfl, rfl, rfl⟩

/-! ## Success lemmas for the loop pieces (towards C3) -/

/-- A subscript below the length succeeds. -/
theorem getI_of_lt {α : Type} {l : List α} {i : ℕ} (h : i < l.length) :
    getI l i = .ok (l.get ⟨i, h⟩) := by
  unfold getI
  rw [List.get?_eq_get h]

/-- A successful subscript returns a member of the list. -/
theorem getI_mem {α : Type} {l : List α} {i : ℕ} {a : α} (h : getI l i = .ok a) :
    a ∈ l := by
  rw [getI_ok_iff] at h
  exact List.get?_mem h

/-- `findBirdIdx` succeeds, within bounds, for any bird in the list. -/
theorem findBirdIdx_mem {b : Bird} {l : List Bird} (h : b ∈ l) :
    ∃ i, findBirdIdx b.id l = some i ∧ i < l.length := by
  induction l with
  | nil => cases h
  | cons c cs ih =>
      by_cases hid : c.id = b.id
      · exact ⟨0, by unfold findBirdIdx; rw [if_pos hid], by simp⟩
      · have hm : b ∈ cs := by
          rcases List.mem_cons.mp h with rfl | hmem
          · exact absurd rfl hid
          · exact hmem
        obtain ⟨i, hfi, hlt⟩ := ih hm
        refine ⟨i + 1, ?_, by simp; omega⟩
        unfold findBirdIdx
        rw [if_neg hid, hfi]
        rfl

/-- With silent networks, one pass of the first bird loop body moves the
cursor bird in place, bumps one genome's fitness, and touches nothing else;
in particular no flap fires. -/
theorem birdStep_ok {P : Params} {sel k : ℕ} {bird : Bird} {st : SimState}
    (hNets : NetsOk st.neural_nets)
    (hlg : st.genomes.length = st.birds.length)
    (hln : st.neural_nets.length = st.birds.length)
    (hk : st.birds.get? k = some bird)
    (hsel : sel < st.pipes.length) :
    ∃ genomes', genomes'.length = st.genomes.length ∧
      birdStep P sel k bird st
        = .ok { st with birds := st.birds.set k (Bird.move bird), genomes := genomes' } := by
  have hkl : k < st.birds.length := by
    rcases List.get?_eq_some.mp hk with ⟨h, -⟩
    exact h
  have hmem : bird ∈ st.birds := List.get?_mem hk
  obtain ⟨i₁, hfi₁, hi₁⟩ := findBirdIdx_mem hmem
  have hidx₁ : indexOfBird st.birds bird.id = .ok i₁ := by
    unfold indexOfBird
    rw [hfi₁]
  have hi₁g : i₁ < st.genomes.length := by omega
  have hgget : getI st.genomes i₁ = .ok (st.genomes.get ⟨i₁, hi₁g⟩) := getI_of_lt hi₁g
  have hkset : k < (st.birds.set k (Bird.move bird)).length := by
    simp only [List.length_set]
    exact hkl
  have hmem₂ : Bird.move bird ∈ st.birds.set k (Bird.move bird) := by
    have hgm := List.get_mem (st.birds.set k (Bird.move bird)) k hkset
    rwa [List.get_set_eq] at hgm
  obtain ⟨i₂, hfi₂, hi₂⟩ := findBirdIdx_mem hmem₂
  have hidx₂ : indexOfBird (st.birds.set k (Bird.move bird)) (Bird.move bird).id
      = .ok i₂ := by
    unfold indexOfBird
    rw [hfi₂]
  have hi₂n : i₂ < st.neural_nets.length := by
    simp only [List.length_set] at hi₂
    omega
  have hnget : getI st.neural_nets i₂ = .ok (st.neural_nets.get ⟨i₂, hi₂n⟩) :=
    getI_of_lt hi₂n
  have hnmem : st.neural_nets.get ⟨i₂, hi₂n⟩ ∈ st.neural_nets :=
    List.get_mem _ _ _
  have hout := hNets _ hnmem
  have hselget : getI st.pipes sel = .ok (st.pipes.get ⟨sel, hsel⟩) := getI_of_lt hsel
  refine ⟨st.genomes.set i₁
      { st.genomes.get ⟨i₁, hi₁g⟩ with
          fitness := (st.genomes.get ⟨i₁, hi₁g⟩).fitness + 1/10 },
    by simp, ?_⟩
  unfold birdStep
  rw [hidx₁]
  dsimp only [Bind.bind, Except.bind]
  rw [hgget]
  dsimp only
  rw [hidx₂]
  dsimp only
  rw [hnget]
  dsimp only
  rw [hselget]
  dsimp only
  rw [if_neg (not_lt.mpr (hout _))]
  rfl

/-- With silent networks, the first bird loop from cursor `k` succeeds on
fuel exceeding the remaining birds, moves every bird at or after the cursor
once, keeps earlier birds, preserves the genome count and touches nothing
else. -/
theorem birdLoop1_ok {P : Params} {sel : ℕ} :
    ∀ (fuel k : ℕ) (st : SimState),
      NetsOk st.neural_nets →
      st.genomes.length = st.birds.length →
      st.neural_nets.length = st.birds.length →
      sel < st.pipes.length →
      st.birds.length < fuel + k →
      k ≤ st.birds.length →
      ∃ st', birdLoop1 P sel fuel k st = .ok st'
        ∧ st'.birds.length = st.birds.length
        ∧ (∀ i (hi : i < st.birds.length) (hi' : i < st'.birds.length), k ≤ i →
            st'.birds.get ⟨i, hi'⟩ = Bird.move (st.birds.get ⟨i, hi⟩))
        ∧ (∀ i (hi : i < st.birds.length) (hi' : i < st'.birds.length), i < k →
            st'.birds.get ⟨i, hi'⟩ = st.birds.get ⟨i, hi⟩)
        ∧ st'.genomes.length = st.genomes.length
        ∧ st'.neural_nets = st.neural_nets
        ∧ st'.pipes = st.pipes ∧ st'.score = st.score ∧ st'.rng = st.rng
        ∧ st'.base = st.base ∧ st'.frame = st.frame := by
  intro fuel
  induction fuel with
  | zero =>
      intro k st _ _ _ _ hfuel hk
      omega
  | succ fuel ih =>
      intro k st hNets hlg hln hsel hfuel hkle
      cases hk : st.birds.get? k with
      | none =>
          have hlen : st.birds.length ≤ k := List.get?_eq_none.mp hk
          refine ⟨st, ?_, rfl, ?_, fun i hi hi' _ => rfl, rfl, rfl, rfl, rfl, rfl, rfl, rfl⟩
          · unfold birdLoop1
            rw [hk]
            rfl
          · intro i hi hi' hki
            omega
      | some bird =>
          have hkl : k < st.birds.length := by
            rcases List.get?_eq_some.mp hk with ⟨h, -⟩
            exact h
          obtain ⟨genomes', hglen, hstep⟩ := birdStep_ok hNets hlg hln hk hsel
          set stM : SimState :=
            { st with birds := st.birds.set k (Bird.move bird), genomes := genomes' }
            with hstM
          have hMn : NetsOk stM.neural_nets := hNets
          have hMlg : stM.genomes.length = stM.birds.length := by
            simp only [hstM, List.length_set]
            omega
          have hMln : stM.neural_nets.length = stM.birds.length := by
            simp only [hstM, List.length_set]
            omega
          have hMsel : sel < stM.pipes.length := hsel
          have hMfuel : stM.birds.length < fuel + (k + 1) := by
            simp only [hstM, List.length_set]
            omega
          have hMk : k + 1 ≤ stM.birds.length := by
            simp only [hstM, List.length_set]
            omega
          obtain ⟨st', hloop, hlen', hmov, hkeep, hgl, hnn, hpp, hsc, hrg, hbs, hfr⟩ :=
            ih (k + 1) stM hMn hMlg hMln hMsel hMfuel hMk
          have hMlen : stM.birds.length = st.birds.length := by
            simp only [hstM, List.length_set]
          refine ⟨st', ?_, by omega, ?_, ?_, by rw [hgl, hglen], hnn, hpp, hsc, hrg, hbs, hfr⟩
          · unfold birdLoop1
            rw [hk]
            dsimp only
            rw [hstep]
            dsimp only [Bind.bind, Except.bind]
            exact hloop
          · intro i hi hi' hki
            have hiM : i < stM.birds.length := by omega
            rcases Nat.eq_or_lt_of_le hki with heq | hlt
            · have h1 : st'.birds.get ⟨i, hi'⟩ = stM.birds.get ⟨i, hiM⟩ :=
                hkeep i hiM hi' (by omega)
              have h2 : stM.birds.get ⟨i, hiM⟩ = Bird.move bird := by
                simp only [hstM, ← heq]
                exact List.get_set_eq _
              have h3 : st.birds.get ⟨i, hi⟩ = bird := by
                have hgg := List.get?_eq_get hi
                have hgg2 : st.birds.get? i = some bird := heq ▸ hk
                rw [hgg] at hgg2
                exact (Option.some.injEq _ _).mp hgg2
              rw [h1, h2, h3]
            · have h1 : st'.birds.get ⟨i, hi'⟩ = Bird.move (stM.birds.get ⟨i, hiM⟩) :=
                hmov i hiM hi' (by omega)
              have h2 : stM.birds.get ⟨i, hiM⟩ = st.birds.get ⟨i, hi⟩ := by
                simp only [hstM]
                exact List.get_set_ne (by omega) _
              rw [h1, h2]
          · intro i hi hi' hki
            have hiM : i < stM.birds.length := by omega
            have h1 : st'.birds.get ⟨i, hi'⟩ = stM.birds.get ⟨i, hiM⟩ :=
              hkeep i hiM hi' (by omega)
            have h2 : stM.birds.get ⟨i, hiM⟩ = st.birds.get ⟨i, hi⟩ := by
              simp only [hstM]
              exact List.get_set_ne (by omega) _
            rw [h1, h2]

/-- For a bird still in the list, the triple pop succeeds and removes one
common position from the three parallel lists. -/
theorem popTriple_ok {st : SimState} {bird : Bird}
    (hmem : bird ∈ st.birds)
    (hlg : st.genomes.length = st.birds.length)
    (hln : st.neural_nets.length = st.birds.length) :
    ∃ i, i < st.birds.length ∧
      popTriple st bird.id = .ok { st with
        neural_nets := st.neural_nets.eraseIdx i,
        genomes := st.genomes.eraseIdx i,
        birds := st.birds.eraseIdx i } := by
  obtain ⟨i, hfi, hilt⟩ := findBirdIdx_mem hmem
  have hidx : indexOfBird st.birds bird.id = .ok i := by
    unfold indexOfBird
    rw [hfi]
  have hpn : popI st.neural_nets i = .ok (st.neural_nets.eraseIdx i) := by
    unfold popI
    rw [if_pos (by omega)]
  have hpg : popI st.genomes i = .ok (st.genomes.eraseIdx i) := by
    unfold popI
    rw [if_pos (by omega)]
  have hpb : popI st.birds i = .ok (st.birds.eraseIdx i) := by
    unfold popI
    rw [if_pos hilt]
  refine ⟨i, hilt, ?_⟩
  unfold popTriple
  rw [hidx]
  dsimp only [Bind.bind, Except.bind]
  rw [hpn]
  dsimp only [Except.bind]
  rw [hpg]
  dsimp only [Except.bind]
  rw [hpb]
  dsimp only [Except.bind]
  rfl

/-- When the mask test never fires, the collision branch is a no-op. -/
theorem collideCheck_noop {P : Params} (hc : ∀ nf p b, P.collide nf p b = false)
    (nf : ℕ) (pj : Pipe) (bird : Bird) (st : SimState) :
    collideCheck P nf pj bird st = .ok st := by
  unfold collideCheck
  rw [hc]
  simp
  rfl

/-- For a bird still in the list and aligned parallel lists, the
floor/ceiling branch succeeds, removes the triple exactly when the bird is
out of bounds, and touches nothing else. -/
theorem boundsCheck_ok_c3 {P : Params} {bird : Bird} {st : SimState}
    (hmem : bird ∈ st.birds)
    (hlg : st.genomes.length = st.birds.length)
    (hln : st.neural_nets.length = st.birds.length) :
    ∃ st', boundsCheck P bird st = .ok st'
      ∧ st'.pipes = st.pipes ∧ st'.score = st.score ∧ st'.rng = st.rng
      ∧ List.Sublist st'.birds st.birds
      ∧ List.Sublist st'.neural_nets st.neural_nets
      ∧ st'.genomes.length = st'.birds.length
      ∧ st'.neural_nets.length = st'.birds.length
      ∧ (OOBy P bird.y → st'.birds.length < st.birds.length)
      ∧ st'.birds.length ≤ st.birds.length := by
  unfold boundsCheck
  by_cases hoob : floorY - P.birdH ≤ bird.y ∨ bird.y < ceilingY
  · rw [if_pos hoob]
    obtain ⟨i, hilt, hpop⟩ := popTriple_ok hmem hlg hln
    rw [hpop]
    refine ⟨_, rfl, rfl, rfl, rfl, List.eraseIdx_sublist _ _, List.eraseIdx_sublist _ _,
      ?_, ?_, ?_, ?_⟩
    · show (st.genomes.eraseIdx i).length = (st.birds.eraseIdx i).length
      rw [List.length_eraseIdx_of_lt (by omega : i < st.genomes.length),
        List.length_eraseIdx_of_lt hilt]
      omega
    · show (st.neural_nets.eraseIdx i).length = (st.birds.eraseIdx i).length
      rw [List.length_eraseIdx_of_lt (by omega : i < st.neural_nets.length),
        List.length_eraseIdx_of_lt hilt]
      omega
    · intro _
      show (st.birds.eraseIdx i).length < st.birds.length
      rw [List.length_eraseIdx_of_lt hilt]
      omega
    · show (st.birds.eraseIdx i).length ≤ st.birds.length
      rw [List.length_eraseIdx_of_lt hilt]
      omega
  · rw [if_neg hoob]
    exact ⟨st, rfl, rfl, rfl, rfl, List.Sublist.refl _, List.Sublist.refl _, hlg, hln,
      fun hcon => absurd hcon hoob, le_refl _⟩

/-- The pass check always succeeds when a lead pipe exists. -/
theorem passCheck_ok {P : Params} {bird : Bird} {st : SimState} (hne : st.pipes ≠ []) :
    ∃ st', passCheck P bird st = .ok st' := by
  have h0 : 0 < st.pipes.length := List.length_pos.mpr hne
  unfold passCheck
  rw [getI_of_lt h0]
  dsimp only [Bind.bind, Except.bind]
  split_ifs <;> exact ⟨_, rfl⟩

/-- For a bird in the column x = 144, a successful pass check keeps the
pipe-list invariant, resolves the head pipe, preserves the loop fuel
measure, never shrinks the pipe list, and leaves the parallel lists
alone. -/
theorem passCheck_c3 {P : Params} {bird : Bird} {st st' : SimState}
    (h : passCheck P bird st = .ok st')
    (hPO : PipesOk st.pipes) (hx : bird.x = 144) :
    PipesOk st'.pipes ∧ headResolved st' ∧ Mslack st' = Mslack st
    ∧ st.pipes.length ≤ st'.pipes.length
    ∧ st'.birds = st.birds ∧ st'.genomes = st.genomes
    ∧ st'.neural_nets = st.neural_nets := by
  obtain ⟨hb, hg, hn, -, -, p0, hp0, hcase⟩ := passCheck_spec h
  rcases hcase with ⟨hcond, hpipes, hscore, -⟩ | ⟨hncond, heq⟩
  · cases hps : st.pipes with
    | nil => rw [hps] at hp0; simp at hp0
    | cons q tail =>
        rw [hps] at hp0
        simp only [List.get?_cons_zero, Option.some.injEq] at hp0
        subst hp0
        rw [hps] at hpipes
        simp only [List.set_cons_zero, List.cons_append] at hpipes
        obtain ⟨-, htail, -⟩ := hPO
        rw [hps] at htail
        refine ⟨⟨by rw [hpipes]; simp, ?_, ?_⟩, ?_, ?_, ?_, hb, hg, hn⟩
        · intro p hp
          rw [hpipes] at hp
          simp only [List.tail_cons] at hp
          rcases List.mem_append.mp hp with hmem | hmem
          · exact htail p hmem
          · simp only [List.mem_singleton] at hmem
            rw [hmem]
            exact create_unpassed _ _ _
        · intro hlen _
          rw [hpipes]
          simp
        · intro p hp
          rw [hpipes] at hp
          simp only [List.head?_cons, Option.some.injEq] at hp
          rw [← hp]
          exact Or.inl rfl
        · unfold Mslack
          rw [hpipes, hps]
          rw [show headPassedB (q :: tail) = q.passed from rfl, hcond.2]
          simp [headPassedB]
        · rw [hpipes]
          simp
  · rw [heq]
    refine ⟨hPO, ?_, rfl, le_refl _, rfl, rfl, rfl⟩
    intro p hp
    have hp0' : st.pipes.get? 0 = some p := by
      rw [List.get?_zero, hp]
    rw [hp0] at hp0'
    have : p0 = p := (Option.some.injEq _ _).mp hp0'
    subst this
    rw [hx] at hncond
    by_cases hpass : p0.passed = false
    · right
      by_contra hlt
      push_neg at hlt
      exact hncond ⟨hlt, hpass⟩
    · left
      simpa using hpass

/-- With no mask overlap ever, the elimination body for a bird of the
x = 144 column succeeds, only shrinks the parallel lists (strictly when the
bird is out of bounds), keeps the pipe-list invariant and the fuel measure,
never shrinks the pipe list, and resolves the head pipe. -/
theorem elimBody_ok_c3 {P : Params} (hc : ∀ nf p b, P.collide nf p b = false)
    {nf j : ℕ} {bird : Bird} {st : SimState}
    (hmem : bird ∈ st.birds) (hx : bird.x = 144)
    (hlg : st.genomes.length = st.birds.length)
    (hln : st.neural_nets.length = st.birds.length)
    (hj : j < st.pipes.length) (hPO : PipesOk st.pipes) :
    ∃ st', elimBody P nf j bird st = .ok st'
      ∧ List.Sublist st'.birds st.birds
      ∧ List.Sublist st'.neural_nets st.neural_nets
      ∧ st'.genomes.length = st'.birds.length
      ∧ st'.neural_nets.length = st'.birds.length
      ∧ PipesOk st'.pipes ∧ headResolved st' ∧ Mslack st' = Mslack st
      ∧ st.pipes.length ≤ st'.pipes.length
      ∧ (OOBy P bird.y → st'.birds.length < st.birds.length)
      ∧ st'.birds.length ≤ st.birds.length := by
  obtain ⟨st₂, hbc, hp2, hs2, hr2, hsubB, hsubN, halG, halN, hstrict, hle⟩ :=
    boundsCheck_ok_c3 (P := P) hmem hlg hln
  have hne2 : st₂.pipes ≠ [] := by
    rw [hp2]
    exact hPO.1
  obtain ⟨st₃, hpc⟩ := @passCheck_ok P bird st₂ hne2
  have hPO2 : PipesOk st₂.pipes := by
    rw [hp2]
    exact hPO
  obtain ⟨hPO3, hres3, hms3, hlen3, hb3, hg3, hn3⟩ := passCheck_c3 hpc hPO2 hx
  have hms2 : Mslack st₂ = Mslack st := by
    unfold Mslack
    rw [hp2]
  refine ⟨st₃, ?_, ?_, ?_, ?_, ?_, hPO3, hres3, ?_, ?_, ?_, ?_⟩
  · unfold elimBody
    rw [getI_of_lt hj]
    dsimp only [Bind.bind, Except.bind]
    rw [collideCheck_noop hc]
    dsimp only [Except.bind]
    rw [hbc]
    dsimp only [Except.bind]
    exact hpc
  · rw [hb3]
    exact hsubB
  · rw [hn3]
    exact hsubN
  · rw [hb3, hg3]
    exact halG
  · rw [hb3, hn3]
    exact halN
  · rw [hms3, hms2]
  · calc st.pipes.length = st₂.pipes.length := by rw [hp2]
      _ ≤ st₃.pipes.length := hlen3
  · intro hooby
    rw [hb3]
    exact hstrict hooby
  · rw [hb3]
    exact hle

/-- With no mask overlap ever and a uniform column of birds, the inner
elimination loop succeeds on fuel exceeding the remaining birds, only
shrinks the parallel lists (strictly from cursor 0 when the birds are out
of bounds), keeps the pipe invariants, and resolves the head pipe as soon
as one check runs. -/
theorem birdLoop2_ok_c3 {P : Params} (hc : ∀ nf p b, P.collide nf p b = false)
    {nf j : ℕ} {Y : ℚ} :
    ∀ (fuel k : ℕ) (st : SimState),
      st.genomes.length = st.birds.length →
      st.neural_nets.length = st.birds.length →
      (∀ b ∈ st.birds, b.x = 144) →
      (∀ b ∈ st.birds, b.y = Y) →
      j < st.pipes.length →
      PipesOk st.pipes →
      st.birds.length < fuel + k →
      (k ≤ st.birds.length ∨ 1 ≤ fuel) →
      ∃ st', birdLoop2 P nf j fuel k st = .ok st'
        ∧ List.Sublist st'.birds st.birds
        ∧ List.Sublist st'.neural_nets st.neural_nets
        ∧ st'.genomes.length = st'.birds.length
        ∧ st'.neural_nets.length = st'.birds.length
        ∧ PipesOk st'.pipes
        ∧ Mslack st' = Mslack st
        ∧ st.pipes.length ≤ st'.pipes.length
        ∧ (headResolved st → headResolved st')
        ∧ (k = 0 → st.birds ≠ [] → headResolved st')
        ∧ st'.birds.length ≤ st.birds.length
        ∧ (k = 0 → st.birds ≠ [] → OOBy P Y →
            st'.birds.length < st.birds.length) := by
  intro fuel
  induction fuel with
  | zero =>
      intro k st _ _ _ _ _ _ hfuel hkf
      rcases hkf with h | h <;> omega
  | succ fuel ih =>
      intro k st hlg hln hallx hally hj hPO hfuel hkf
      cases hk : st.birds.get? k with
      | none =>
          have hnone : st.birds.length ≤ k := List.get?_eq_none.mp hk
          refine ⟨st, ?_, List.Sublist.refl _, List.Sublist.refl _, hlg, hln, hPO, rfl,
            le_refl _, fun h => h, ?_, le_refl _, ?_⟩
          · unfold birdLoop2
            rw [hk]
            rfl
          · intro hk0 hne
            exfalso
            subst hk0
            exact hne (List.eq_nil_of_length_eq_zero (by omega))
          · intro hk0 hne _
            exfalso
            subst hk0
            exact hne (List.eq_nil_of_length_eq_zero (by omega))
      | some bird =>
          have hkl : k < st.birds.length := by
            rcases List.get?_eq_some.mp hk with ⟨h, -⟩
            exact h
          have hmem : bird ∈ st.birds := List.get?_mem hk
          have hx := hallx bird hmem
          obtain ⟨st₁, hbody, hsubB, hsubN, halG, halN, hPO1, hres1, hms1, hplen1,
            hstrict1, hle1⟩ := elimBody_ok_c3 hc hmem hx hlg hln hj hPO
          have hallx1 : ∀ b ∈ st₁.birds, b.x = 144 :=
            fun b hb => hallx b (hsubB.subset hb)
          have hally1 : ∀ b ∈ st₁.birds, b.y = Y :=
            fun b hb => hally b (hsubB.subset hb)
          have hj1 : j < st₁.pipes.length := lt_of_lt_of_le hj hplen1
          have hfuel1 : st₁.birds.length < fuel + (k + 1) := by omega
          have hkf1 : k + 1 ≤ st₁.birds.length ∨ 1 ≤ fuel := Or.inr (by omega)
          obtain ⟨st', hloop, hsubB', hsubN', halG', halN', hPO', hms', hplen', hresp',
            hrese', hle', hstrict'⟩ :=
            ih (k + 1) st₁ halG halN hallx1 hally1 hj1 hPO1 hfuel1 hkf1
          refine ⟨st', ?_, hsubB'.trans hsubB, hsubN'.trans hsubN, halG', halN', hPO',
            by rw [hms', hms1], le_trans hplen1 hplen', ?_, ?_, le_trans hle' hle1, ?_⟩
          · unfold birdLoop2
            rw [hk]
            dsimp only
            rw [hbody]
            dsimp only [Bind.bind, Except.bind]
            exact hloop
          · intro _
            exact hresp' hres1
          · intro _ _
            exact hresp' hres1
          · intro hk0 hne hoob
            have hbirdY : bird.y = Y := hally bird hmem
            have hd1 : st₁.birds.length < st.birds.length := by
              apply hstrict1
              rw [hbirdY]
              exact hoob
            omega

/-- Moving the pipe at a valid position preserves the pipe-list
invariant (only x changes). -/
theorem PipesOk_set_move {l : List Pipe} {j : ℕ} {pj : Pipe}
    (hj : l.get? j = some pj) (hPO : PipesOk l) : PipesOk (l.set j pj.move) := by
  obtain ⟨hne, htail, hhead⟩ := hPO
  cases l with
  | nil => simp at hj
  | cons q rest =>
      cases j with
      | zero =>
          simp only [List.get?_cons_zero, Option.some.injEq] at hj
          subst hj
          simp only [List.set_cons_zero]
          refine ⟨by simp, htail, ?_⟩
          intro h hp
          have hp' : q.passed = true := hp
          have h2 := hhead (by simp) hp'
          simpa using h2
      | succ n =>
          simp only [List.get?_cons_succ] at hj
          simp only [List.set_cons_succ]
          refine ⟨by simp, ?_, ?_⟩
          · intro p hp
            simp only [List.tail_cons] at hp
            rcases List.mem_or_eq_of_mem_set hp with hmem | hmem
            · exact htail p hmem
            · have hpjmem : pj ∈ rest := List.get?_mem hj
              have : p.passed = pj.passed := by rw [hmem]; rfl
              rw [this]
              exact htail pj hpjmem
          · intro h hp
            simp only [List.length_cons, List.length_set] at h ⊢
            exact hhead (by simp) hp

/-- Moving the pipe at a valid position preserves whether the head is
passed. -/
theorem headPassedB_set_move {l : List Pipe} {j : ℕ} {pj : Pipe}
    (hj : l.get? j = some pj) :
    headPassedB (l.set j pj.move) = headPassedB l := by
  cases l with
  | nil => rfl
  | cons q rest =>
      cases j with
      | zero =>
          simp only [List.get?_cons_zero, Option.some.injEq] at hj
          subst hj
          rfl
      | succ n => rfl

/-- Moving a pipe strictly behind the head preserves head resolvedness. -/
theorem head?_set_succ {l : List Pipe} {n : ℕ} {a : Pipe} :
    (l.set (n + 1) a).head? = l.head? := by
  cases l <;> rfl

/-- With no mask overlap ever and a uniform column of birds, the whole
elimination pass from pipe cursor `j` succeeds on fuel exceeding the
measure `Mslack`, only shrinks the parallel lists (strictly from cursor 0
when birds exist and are out of bounds), keeps the pipe invariant, and
ends with a resolved head pipe when started at cursor 0 with birds. -/
theorem pipeLoop_ok_c3 {P : Params} (hc : ∀ nf p b, P.collide nf p b = false)
    {nf : ℕ} {Y : ℚ} :
    ∀ (fuel j : ℕ) (st : SimState),
      st.genomes.length = st.birds.length →
      st.neural_nets.length = st.birds.length →
      (∀ b ∈ st.birds, b.x = 144) →
      (∀ b ∈ st.birds, b.y = Y) →
      PipesOk st.pipes →
      Mslack st < fuel + j →
      (j ≤ Mslack st ∨ 1 ≤ fuel) →
      ∃ st', pipeLoop P nf fuel j st = .ok st'
        ∧ List.Sublist st'.birds st.birds
        ∧ List.Sublist st'.neural_nets st.neural_nets
        ∧ st'.genomes.length = st'.birds.length
        ∧ st'.neural_nets.length = st'.birds.length
        ∧ PipesOk st'.pipes
        ∧ (j = 0 → st.birds ≠ [] → headResolved st')
        ∧ (j ≠ 0 → headResolved st → headResolved st')
        ∧ st'.birds.length ≤ st.birds.length
        ∧ (j = 0 → st.birds ≠ [] → OOBy P Y → st'.birds.length < st.birds.length) := by
  intro fuel
  induction fuel with
  | zero =>
      intro j st _ _ _ _ _ hfuel hkf
      rcases hkf with h | h <;> omega
  | succ fuel ih =>
      intro j st hlg hln hallx hally hPO hfuel hkf
      cases hjget : st.pipes.get? j with
      | none =>
          have hjlen : st.pipes.length ≤ j := List.get?_eq_none.mp hjget
          have hnil : j = 0 → False := by
            intro hj0
            subst hj0
            exact hPO.1 (List.eq_nil_of_length_eq_zero (by omega))
          refine ⟨st, ?_, List.Sublist.refl _, List.Sublist.refl _, hlg, hln, hPO,
            ?_, fun _ h => h, le_refl _, ?_⟩
          · unfold pipeLoop
            rw [hjget]
            rfl
          · intro hj0 _
            exact absurd hj0 hnil
          · intro hj0 _ _
            exact absurd hj0 hnil
      | some pj =>
          have hjlen : j < st.pipes.length := by
            rcases List.get?_eq_some.mp hjget with ⟨h, -⟩
            exact h
          set stM : SimState := { st with pipes := st.pipes.set j pj.move } with hstM
          have hPOM : PipesOk stM.pipes := PipesOk_set_move hjget hPO
          have hmsM : Mslack stM = Mslack st := by
            unfold Mslack
            simp only [hstM]
            rw [headPassedB_set_move hjget]
            simp
          have hjM : j < stM.pipes.length := by
            simp only [hstM, List.length_set]
            exact hjlen
          obtain ⟨st₂, hbl2, hsubB2, hsubN2, halG2, halN2, hPO2, hms2, hplen2, hresp2,
            hrese2, hle2, hstrict2⟩ :=
            birdLoop2_ok_c3 hc (stM.birds.length + 1) 0 stM hlg hln hallx hally hjM hPOM
              (by omega) (Or.inl (Nat.zero_le _))
          have hfuel' : Mslack st₂ < fuel + (j + 1) := by
            rw [hms2, hmsM]
            omega
          have hfge1 : 1 ≤ fuel := by
            have : j < Mslack st := by
              unfold Mslack
              omega
            omega
          obtain ⟨st', hloop, hsubB', hsubN', halG', halN', hPO', hrese', hresp', hle',
            hstrict'⟩ :=
            ih (j + 1) st₂ halG2 halN2
              (fun b hb => hallx b (hsubB2.subset hb))
              (fun b hb => hally b (hsubB2.subset hb))
              hPO2 hfuel' (Or.inr hfge1)
          have hbl2' : birdLoop2 P nf j (st.birds.length + 1) 0
              { st with pipes := st.pipes.set j pj.move } = Except.ok st₂ := hbl2
          refine ⟨st', ?_, hsubB'.trans hsubB2,
            hsubN'.trans hsubN2, halG', halN', hPO', ?_, ?_, le_trans hle' hle2, ?_⟩
          · show pipeLoop P nf (fuel + 1) j st = .ok st'
            unfold pipeLoop
            rw [hjget]
            dsimp only
            rw [hbl2']
            dsimp only [Bind.bind, Except.bind]
            exact hloop
          · intro hj0 hne
            have hresolved2 : headResolved st₂ := hrese2 rfl hne
            exact hresp' (by omega) hresolved2
          · intro hjne hres
            have hresM : headResolved stM := by
              intro p hp
              apply hres
              rcases Nat.exists_eq_succ_of_ne_zero hjne with ⟨n, rfl⟩
              rw [← head?_set_succ (l := st.pipes) (n := n) (a := pj.move)]
              exact hp
            have hres2 : headResolved st₂ := hresp2 hresM
            exact hresp' (by omega) hres2
          · intro hj0 hne hoob
            have hd : st₂.birds.length < st.birds.length := hstrict2 rfl hne hoob
            omega

/-- The sensor-pipe selection succeeds and stays within the pipe list. -/
theorem computeSelPipe_ok {P : Params} {st : SimState}
    (hbne : st.birds ≠ []) (hpne : st.pipes ≠ []) :
    ∃ sel, computeSelPipe P st = .ok sel ∧ sel < st.pipes.length := by
  unfold computeSelPipe
  by_cases hlen : 1 < st.pipes.length
  · rw [if_pos hlen]
    have hb0 : 0 < st.birds.length := List.length_pos.mpr hbne
    have hp0 : 0 < st.pipes.length := by omega
    rw [getI_of_lt hb0]
    dsimp only [Bind.bind, Except.bind]
    rw [getI_of_lt hp0]
    dsimp only [Except.bind]
    refine ⟨_, rfl, ?_⟩
    split_ifs <;> omega
  · rw [if_neg hlen]
    exact ⟨0, rfl, List.length_pos.mpr hpne⟩

/-- Dropping a passed lead pipe that has a successor keeps the pipe-list
invariant. -/
theorem PipesOk_pop {l : List Pipe} (hPO : PipesOk l) (h2 : 2 ≤ l.length) :
    PipesOk (l.eraseIdx 0) := by
  cases l with
  | nil => simp at h2
  | cons q rest =>
      obtain ⟨-, htail, -⟩ := hPO
      simp only [List.eraseIdx_cons_zero]
      simp only [List.tail_cons] at htail
      refine ⟨?_, ?_, ?_⟩
      · intro hnil
        rw [hnil] at h2
        simp at h2
      · intro p hp
        cases rest with
        | nil => cases hp
        | cons r rs =>
            simp only [List.tail_cons] at hp
            exact htail p (List.mem_cons_of_mem r hp)
      · intro h0 hp
        have hmem : rest.get ⟨0, h0⟩ ∈ rest := List.get_mem _ _ _
        have := htail _ hmem
        rw [this] at hp
        cases hp

/-- A network-list invariant descends to sublists. -/
theorem netsOk_sublist {l l' : List Net} (h : NetsOk l) (hs : List.Sublist l' l) :
    NetsOk l' :=
  fun net hm v => h net (hs.subset hm) v

/-- One tick of the C3 scenario: with silent nets, no mask overlap and
nonnegative sprite sizes, the tick succeeds, advances the uniform
trajectory invariant, never grows the population, and strictly shrinks it
once the trajectory has passed the floor line (from tick 11 on). -/
theorem tick_ok_c3 {P : Params} (hc : ∀ nf p b, P.collide nf p b = false)
    (hbH : 0 ≤ P.birdH) (hpW : 0 ≤ P.pipeW) {t : ℕ} {st : SimState}
    (hInv : Inv t st) (hbne : st.birds ≠ []) :
    ∃ st', tick P st = .ok st' ∧ Inv (t + 1) st'
      ∧ st'.birds.length ≤ st.birds.length
      ∧ (11 ≤ t + 1 → st'.birds.length < st.birds.length) := by
  obtain ⟨hUni, hlg, hln, hNd, hNets, hPO⟩ := hInv
  obtain ⟨sel, hseleq, hselt⟩ := computeSelPipe_ok (P := P) hbne hPO.1
  obtain ⟨st₁, hbl1, hlen1, hmov1, hkeep1, hglen1, hnets1, hpipes1, hscore1, hrng1,
    hbase1, hframe1⟩ :=
    birdLoop1_ok (P := P) (st.birds.length + 1) 0 st hNets hlg hln hselt (by omega)
      (Nat.zero_le _)
  set st₂ : SimState :=
    { st₁ with base := Base.move P.baseW st₁.base, frame := st₁.frame + 1 } with hst₂
  have hb2eq : st₂.birds = st₁.birds := rfl
  have hUni2 : ∀ b ∈ st₂.birds, eqUpToId (birdAt (t + 1)) b := by
    intro b hb
    rw [hb2eq] at hb
    obtain ⟨⟨i, hi⟩, hget⟩ := List.mem_iff_get.mp hb
    have hilt : i < st.birds.length := by omega
    have hmove := hmov1 i hilt hi (Nat.zero_le i)
    rw [← hget, hmove, birdAt_succ]
    exact eqUpToId_move (hUni _ (List.get_mem _ _ _))
  have hallx2 : ∀ b ∈ st₂.birds, b.x = 144 := by
    intro b hb
    obtain ⟨hx, -⟩ := hUni2 b hb
    rw [← hx, (birdAt_fields (t + 1)).2.1]
  have hally2 : ∀ b ∈ st₂.birds, b.y = (birdAt (t + 1)).y := by
    intro b hb
    obtain ⟨-, hy, -⟩ := hUni2 b hb
    exact hy.symm
  have hlg2 : st₂.genomes.length = st₂.birds.length := by
    show st₁.genomes.length = st₁.birds.length
    omega
  have hln2 : st₂.neural_nets.length = st₂.birds.length := by
    show st₁.neural_nets.length = st₁.birds.length
    rw [hnets1]
    omega
  have hPO2 : PipesOk st₂.pipes := by
    show PipesOk st₁.pipes
    rw [hpipes1]
    exact hPO
  have hNets2 : NetsOk st₂.neural_nets := by
    show NetsOk st₁.neural_nets
    rw [hnets1]
    exact hNets
  have hbne2 : st₂.birds ≠ [] := by
    rw [hb2eq]
    intro hnil
    apply hbne
    apply List.eq_nil_of_length_eq_zero
    rw [← hlen1, hnil]
    rfl
  have hms2 : Mslack st₂ < (st₂.pipes.length + 2) + 0 := by
    unfold Mslack
    split_ifs <;> omega
  obtain ⟨st₃, hpl, hsubB3, hsubN3, halG3, halN3, hPO3, hrese3, hresp3, hle3,
    hstrict3⟩ :=
    @pipeLoop_ok_c3 P hc (nextFrameAt st₁.frame) ((birdAt (t + 1)).y)
      (st₂.pipes.length + 2) 0 st₂ hlg2 hln2 hallx2 hally2 hPO2 hms2
      (Or.inl (Nat.zero_le _))
  have hres3 : headResolved st₃ := hrese3 rfl hbne2
  have hpne3 : st₃.pipes ≠ [] := hPO3.1
  have h03 : 0 < st₃.pipes.length := List.length_pos.mpr hpne3
  have hget03 : getI st₃.pipes 0 = .ok (st₃.pipes.get ⟨0, h03⟩) := getI_of_lt h03
  have hhead3 : st₃.pipes.head? = some (st₃.pipes.get ⟨0, h03⟩) := by
    have := List.get?_eq_get h03
    rwa [List.get?_zero] at this
  -- the ids of the moved birds are those of the originals
  have hids2 : st₂.birds.map Bird.id = st.birds.map Bird.id := by
    apply List.ext_get
    · simp only [List.length_map]
      show st₁.birds.length = st.birds.length
      omega
    · intro n h1 h2
      simp only [List.length_map] at h1 h2
      simp only [List.get_map]
      show (st₁.birds.get ⟨n, h1⟩).id = (st.birds.get ⟨n, h2⟩).id
      rw [hmov1 n h2 h1 (Nat.zero_le n)]
      exact (move_fields _).2.2.1
  have hNd3 : (st₃.birds.map Bird.id).Nodup := by
    have hNd2 : (st₂.birds.map Bird.id).Nodup := by
      rw [hids2]
      exact hNd
    exact hNd2.sublist (hsubB3.map Bird.id)
  have hNets3 : NetsOk st₃.neural_nets := by
    apply netsOk_sublist hNets2 ?_
    exact hsubN3
  have hUni3 : ∀ b ∈ st₃.birds, eqUpToId (birdAt (t + 1)) b :=
    fun b hb => hUni2 b (hsubB3.subset hb)
  -- the final pipe pop
  by_cases hguard : (st₃.pipes.get ⟨0, h03⟩).x < -P.pipeW
  · have hpassed : (st₃.pipes.get ⟨0, h03⟩).passed = true := by
      rcases hres3 _ hhead3 with h | h
      · exact h
      · omega
    have h2len : 2 ≤ st₃.pipes.length := hPO3.2.2 h03 hpassed
    have hPO' : PipesOk (st₃.pipes.eraseIdx 0) := PipesOk_pop hPO3 h2len
    refine ⟨{ st₃ with pipes := st₃.pipes.eraseIdx 0 }, ?_, ?_, ?_, ?_⟩
    · unfold tick
      rw [hseleq]
      dsimp only [Bind.bind, Except.bind]
      rw [hbl1]
      dsimp only [Except.bind]
      have hpl' : pipeLoop P (nextFrameAt st₁.frame)
          (st₁.pipes.length + 2) 0
          { st₁ with base := Base.move P.baseW st₁.base, frame := st₁.frame + 1 }
          = .ok st₃ := hpl
      rw [hpl']
      dsimp only [Except.bind]
      rw [hget03]
      dsimp only [Except.bind]
      rw [if_pos hguard]
      rfl
    · exact ⟨hUni3, halG3, halN3, hNd3, hNets3, hPO'⟩
    · calc st₃.birds.length ≤ st₂.birds.length := hle3
        _ = st.birds.length := by rw [hb2eq]; omega
    · intro h11
      have hoob : OOBy P (birdAt (t + 1)).y := by
        left
        have h476 : (476 : ℚ) ≤ (birdAt (t + 1)).y := birdAt_y_late (t + 1) h11
        unfold floorY
        linarith
      have := hstrict3 rfl hbne2 hoob
      calc st₃.birds.length < st₂.birds.length := this
        _ = st.birds.length := by rw [hb2eq]; omega
  · refine ⟨{ st₃ with pipes := st₃.pipes }, ?_, ?_, ?_, ?_⟩
    · unfold tick
      rw [hseleq]
      dsimp only [Bind.bind, Except.bind]
      rw [hbl1]
      dsimp only [Except.bind]
      have hpl' : pipeLoop P (nextFrameAt st₁.frame)
          (st₁.pipes.length + 2) 0
          { st₁ with base := Base.move P.baseW st₁.base, frame := st₁.frame + 1 }
          = .ok st₃ := hpl
      rw [hpl']
      dsimp only [Except.bind]
      rw [hget03]
      dsimp only [Except.bind]
      rw [if_neg hguard]
      rfl
    · exact ⟨hUni3, halG3, halN3, hNd3, hNets3, hPO3⟩
    · calc st₃.birds.length ≤ st₂.birds.length := hle3
        _ = st.birds.length := by rw [hb2eq]; omega
    · intro h11
      have hoob : OOBy P (birdAt (t + 1)).y := by
        left
        have h476 : (476 : ℚ) ≤ (birdAt (t + 1)).y := birdAt_y_late (t + 1) h11
        unfold floorY
        linarith
      have := hstrict3 rfl hbne2 hoob
      calc st₃.birds.length < st₂.birds.length := this
        _ = st.birds.length := by rw [hb2eq]; omega

/-- The initial state of a generation satisfies the invariant at tick 0. -/
theorem initState_inv {P : Params} {nets : List Net}
    (hn : ∀ net ∈ nets, ∀ v, net v ≤ 1/2) :
    Inv 0 (initState P nets) := by
  refine ⟨?_, by simp [initState], by simp [initState], ?_, hn, ?_, ?_, ?_⟩
  · intro b hb
    simp only [initState, List.mem_map] at hb
    obtain ⟨i, -, rfl⟩ := hb
    exact ⟨rfl, rfl, rfl, rfl, rfl, rfl⟩
  · show ((((List.range nets.length).map fun i => Bird.create i 144 256)).map Bird.id).Nodup
    rw [List.map_map]
    have hco : (Bird.id ∘ fun i => Bird.create i 144 256) = id := rfl
    rw [hco, List.map_id]
    exact List.nodup_range _
  · simp [initState]
  · intro p hp
    simp only [initState, List.tail_cons] at hp
    cases hp
  · intro h hp
    have : (Pipe.create P.pipeImgH (P.heights 0) 350).passed = true := hp
    rw [create_unpassed] at this
    cases this

/-- The C3 while-loop lemma: with the invariant at tick `t` and fuel at
least `(11 - t)` plus the live population, the loop runs to extinction and
returns. -/
theorem run_ok_c3 {P : Params} (hc : ∀ nf p b, P.collide nf p b = false)
    (hbH : 0 ≤ P.birdH) (hpW : 0 ≤ P.pipeW) :
    ∀ (fuel t : ℕ) (st : SimState), Inv t st →
      (11 - t) + st.birds.length ≤ fuel →
      ∃ st', run P fuel st = .ok st' ∧ st'.birds = [] := by
  intro fuel
  induction fuel with
  | zero =>
      intro t st hInv hf
      have hlen : st.birds.length = 0 := by omega
      refine ⟨st, ?_, List.eq_nil_of_length_eq_zero hlen⟩
      unfold run
      rw [if_pos hlen]
      rfl
  | succ fuel ih =>
      intro t st hInv hf
      by_cases hlen : st.birds.length = 0
      · refine ⟨st, ?_, List.eq_nil_of_length_eq_zero hlen⟩
        unfold run
        rw [if_pos hlen]
        rfl
      · have hbne : st.birds ≠ [] := fun hnil => hlen (by rw [hnil]; rfl)
        obtain ⟨st₂, htick, hInv2, hle, hstrict⟩ := tick_ok_c3 hc hbH hpW hInv hbne
        have hf2 : (11 - (t + 1)) + st₂.birds.length ≤ fuel := by
          by_cases ht : 11 ≤ t + 1
          · have := hstrict ht
            omega
          · omega
        obtain ⟨st', hrun, hnil⟩ := ih (t + 1) st₂ hInv2 hf2
        refine ⟨st', ?_, hnil⟩
        unfold run
        rw [if_neg hlen, htick]
        dsimp only [Bind.bind, Except.bind]
        exact hrun

/-! ## Claim theorem: no-flap generations go extinct (C3) -/

/-- C3: a bird that never flaps keeps velocity 0 and strictly gains y on
every `move` (first conjunct); and for every population spawned at
(144, 256) whose networks never output more than 0.5 — so `flap` is never
invoked — with no mask overlap ever reported (the no-flap birds fall
straight down long before any pipe scrolls near their column) and
nonnegative sprite sizes, every bird is eliminated at the floor and the
simulation loop returns (reaches EXTINCT) within `11 + population` ticks
(second conjunct). -/
theorem no_flap_extinction (P : Params) (nets : List Net)
    (hc : ∀ nf p b, P.collide nf p b = false)
    (hn : ∀ net ∈ nets, ∀ v, net v ≤ 1/2)
    (hbH : 0 ≤ P.birdH) (hpW : 0 ≤ P.pipeW) :
    (∀ b : Bird, b.vel = 0 → b.y < (Bird.move b).y)
    ∧ Except.map (fun st => st.birds) (fitness P nets (11 + nets.length)) = .ok [] := by
  constructor
  · intro b hv
    have hy := (move_fields b).2.2.2.2.2
    rw [hy, hv]
    have := dispMove_zero_pos b.tick_count
    linarith
  · have hflen : (initState P nets).birds.length = nets.length := by
      simp [initState]
    obtain ⟨st', hrun, hnil⟩ :=
      run_ok_c3 hc hbH hpW (11 + nets.length) 0 (initState P nets)
        (initState_inv hn) (by omega)
    unfold fitness
    rw [hrun]
    show Except.ok st'.birds = Except.ok []
    rw [hnil]

/-- Closed witness for C3: a single silent network goes extinct and the
loop returns. -/
theorem no_flap_extinction_witness :
    Except.map (fun st => st.birds) (fitness paramsMiss [zeroNet] (11 + 1)) = .ok [] :=
  (no_flap_extinction paramsMiss [zeroNet]
    (fun _ _ _ => rfl)
    (by
      intro net hm v
      rw [List.mem_singleton] at hm
      subst hm
      show (0 : ℚ) ≤ 1/2
      norm_num)
    (by norm_num [paramsMiss])
    (by norm_num [paramsMiss])).2

end FlappyBird
